import Mathlib

/-!
# Caramel-Music: catalog synchronization and media-inspection engine

Shallow embedding of the two near-duplicate server implementations of the
Caramel-Music repository:

* `src/front-end/vite.config.js` — the primary implementation (database
  helpers, XML/DIDL transformation, audio-metadata probe, album-art
  extraction, the `/api/browse/:id` sync handler);
* `src/back-end/server.js` — the earlier back-end variant (its own
  `readDatabase`/`writeDatabase`, the `getAlbumArtForDSD` trailing ID3/APIC
  scan, `getAlbumArt`, `getAudioMetadata`).

All network and filesystem effects are passed in as explicit oracle
parameters (results of `fetch`, `fs.existsSync`, `fs.writeFileSync`,
`mm.parseBuffer`, `JSON.parse`), so every definition is an executable pure
function translated from the JavaScript source.  JavaScript `undefined`/`null`
is modelled as `Option`, JavaScript exceptions as `Option`/`Except` results,
byte buffers as `List Nat`, and JS `Map` objects as association lists with
JS `Map.set` semantics.
-/

set_option linter.unusedVariables false

namespace Caramel

/-! ## JavaScript value model (for the generic `ensureArray` helper)

`ensureArray` in both sources is `(val) => Array.isArray(val) ? val : val ? [val] : []`.
Its behaviour depends on JS truthiness, so we model a small universe of JS
values with their truthiness (`NaN` floats are not modelled; no claim
depends on them). -/

inductive JSValue where
  | null
  | undef
  | bool (b : Bool)
  | num (n : Int)
  | str (s : String)
  | obj (fields : List (String × String))
  | arr (elems : List JSValue)
deriving Repr

/-- JavaScript truthiness: `null`, `undefined`, `false`, `0`, `""` are falsy;
objects and arrays (even empty ones) are truthy. -/
def truthy : JSValue → Bool
  | .null => false
  | .undef => false
  | .bool b => b
  | .num n => n != 0
  | .str s => s != ""
  | .obj _ => true
  | .arr _ => true

/-- Models `Array.isArray`. -/
def isArray : JSValue → Bool
  | .arr _ => true
  | _ => false

/-- Embeds `const ensureArray = (val) => (Array.isArray(val) ? val : val ? [val] : []);`
(`vite.config.js:135`; the back-end `server.js:151-154` variant
`if (!val) return []; return Array.isArray(val) ? val : [val];` is
extensionally the same function, since arrays are always truthy). -/
def ensureArray (v : JSValue) : List JSValue :=
  match v with
  | .arr l => l
  | v => if truthy v then [v] else []

/-! ## Decoded XML values

`fast-xml-parser` decodes a repeated element as an array, a unique element
as a lone object, and an absent element as `undefined`.  The typed pipeline
uses this three-way shape; `ensureArrayX` is `ensureArray` specialised to it
(a lone decoded object is truthy and not an array, an absent field is falsy). -/

inductive XmlVal (α : Type) where
  | absent
  | one (a : α)
  | many (l : List α)
deriving Repr, DecidableEq

/-- Typed specialisation of `ensureArray` to decoded XML element values. -/
def ensureArrayX {α : Type} : XmlVal α → List α
  | .absent => []
  | .one a => [a]
  | .many l => l

/-! ## Small JavaScript string/number helpers -/

/-- Models `o || d` for a possibly-undefined string `o` (the empty string is
falsy). -/
def jsOrStr (o : Option String) (d : String) : String :=
  match o with
  | some s => if s = "" then d else s
  | none => d

/-- Models `s || null` for a possibly-undefined string (the empty string
collapses to `null`). -/
def jsStrOrNull (o : Option String) : Option String :=
  o.bind fun s => if s = "" then none else some s

/-- Models `n || null` for a possibly-undefined number (`0` collapses to
`null`). -/
def jsNumOrNull (o : Option Nat) : Option Nat :=
  o.bind fun n => if n = 0 then none else some n

/-- Models a strict JS `===` comparison between a possibly-undefined string
and a definitely-present string: `undefined` is different from every string. -/
def jsEqOptStr (o : Option String) (s : String) : Bool :=
  o = some s

/-- Models `String.prototype.trim` (strip leading and trailing whitespace),
kept executable over the character list. -/
def jsTrim (s : String) : String :=
  String.mk
    (((s.toList.dropWhile Char.isWhitespace).reverse.dropWhile Char.isWhitespace).reverse)

/-- Embeds `formatBitrate` (`vite.config.js:137-141`): falsy bitrate yields
`null`; above `1000` the value is rounded to kilobits (`Math.round(n/1000)`,
half away from zero on naturals is `(n + 500) / 1000`). -/
def formatBitrate (b : Option Nat) : Option String :=
  match b with
  | none => none
  | some n =>
    if n = 0 then none
    else if n > 1000 then some (toString ((n + 500) / 1000) ++ "kbps")
    else some (toString n ++ "kbps")

/-- Digit run to number, used by the `parseInt` model. -/
def digitsToNat (l : List Char) : Nat :=
  l.foldl (fun acc c => acc * 10 + (c.toNat - 48)) 0

/-- Models `parseInt(v, 10)` on a possibly-missing header string: `NaN`
(missing value or no leading digits) becomes `none`.  Signs and leading
whitespace are not modelled; the inputs are `Content-Length` headers, which
are plain digit strings. -/
def jsParseInt (o : Option String) : Option Nat :=
  match o with
  | none => none
  | some s =>
    let ds := s.toList.takeWhile Char.isDigit
    if ds.isEmpty then none else some (digitsToNat ds)

/-! ## Byte-buffer primitives (Node `Buffer` operations)

Buffers are `List Nat` (one entry per byte).  `byteIndexOfFrom` models
`buffer.indexOf(pattern, start)` returning `-1` when absent;
`readUInt32BE` models the bounds-checked big-endian read (Node throws past
the end, which the caller's `try/catch` turns into `null`, hence `Option`);
`jsSlice` models `buffer.slice` and `bufRange` the clamping `buffer.toString`
range semantics. -/

/-- Whether `pat` occurs in `buf` starting exactly at index `i`. -/
def patternAt (buf pat : List Nat) (i : Nat) : Bool :=
  pat.isPrefixOf (buf.drop i)

/-- Models `buffer.indexOf(pat, start)`: the smallest index `i ≥ start` where
`pat` occurs in full, or `-1`. -/
def byteIndexOfFrom (buf pat : List Nat) (start : Nat) : Int :=
  match (List.range (buf.length + 1)).find? (fun i => decide (start ≤ i) && patternAt buf pat i) with
  | some i => (i : Int)
  | none => -1

/-- Models `buffer.readUInt32BE(offset)`; Node throws a `RangeError` when
fewer than 4 bytes remain, modelled as `none`. -/
def readUInt32BE (buf : List Nat) (offset : Nat) : Option Nat :=
  if offset + 4 ≤ buf.length then
    some (buf.getD offset 0 * 16777216 + buf.getD (offset + 1) 0 * 65536 +
          buf.getD (offset + 2) 0 * 256 + buf.getD (offset + 3) 0)
  else none

/-- Models `buffer.slice(start, end)` for non-negative clamped arguments. -/
def jsSlice (buf : List Nat) (s e : Nat) : List Nat :=
  (buf.take e).drop s

/-- Models the byte range selected by `buffer.toString("utf8", start, end)`:
out-of-range values are clamped, and `end ≤ start` yields the empty range. -/
def bufRange (buf : List Nat) (s e : Int) : List Nat :=
  (buf.take e.toNat).drop s.toNat

/-- Decodes an ASCII byte list to a string (MIME types are ASCII). -/
def bytesToString (l : List Nat) : String :=
  String.mk (l.map Char.ofNat)

/-! ## The trailing ID3/APIC scan (`getAlbumArtForDSD`, `server.js:286-347`)

The network part (HEAD + trailing ranged GET) merely produces the buffer;
the claim is about the pure scan over that buffer, embedded here as
`scanAPIC`.  Any JS exception inside the scan is caught by the source's
`try/catch` and converted to `null`, which the `Option` plumbing mirrors. -/

structure Picture where
  format : String
  data : List Nat
  description : String
deriving Repr, DecidableEq

def id3Marker : List Nat := [73, 68, 51]

def apicMarker : List Nat := [65, 80, 73, 67]

/-- Embeds steps 3-5 of `getAlbumArtForDSD`: locate `"ID3"`, locate `"APIC"`
after it, read the 4-byte big-endian frame size, skip the 2 flag bytes and
the text-encoding byte, scan to the NUL ending the MIME type, skip the
picture-type byte, scan to the NUL ending the description, and slice from
there up to `apicIndex + size`. -/
def scanAPIC (buffer : List Nat) : Option Picture :=
  let id3Index := byteIndexOfFrom buffer id3Marker 0
  if id3Index = -1 then none
  else
    let apicIndex := byteIndexOfFrom buffer apicMarker id3Index.toNat
    if apicIndex = -1 then none
    else
      let a := apicIndex.toNat
      match readUInt32BE buffer (a + 4) with
      | none => none
      | some size =>
        -- offset = apicIndex + 4, then += 6 (size + flags), then += 1 (encoding byte)
        let mimeEnd := byteIndexOfFrom buffer [0] (a + 11)
        let mimeType := bytesToString (bufRange buffer ((a + 11 : Nat) : Int) mimeEnd)
        -- offset = mimeEnd + 1, then += 1 (picture-type byte)
        let descEnd := byteIndexOfFrom buffer [0] ((mimeEnd + 1).toNat + 1)
        let dataStart := (descEnd + 1).toNat
        let imageBuffer := jsSlice buffer dataStart (a + size)
        some { format := if mimeType = "" then "image/jpeg" else mimeType,
               data := imageBuffer,
               description := "Scanned Album Art" }

/-! ## Data model

Typed records for the decoded DIDL-Lite payload, the enriched catalog items
and the persisted snapshot.  Optional XML attributes and JS `undefined`
become `Option` fields.  (The parser can also yield numbers where the code
expects strings — e.g. a purely numeric `dc:title`; the model keeps these as
strings, which is the shape every claim is about.) -/

/-- One decoded `res` element (`duration`, `bitrate`, `nrAudioChannels`
attributes and the `#text` URL). -/
structure RawRes where
  duration : Option String := none
  text : Option String := none
  bitrate : Option Nat := none
  nrAudioChannels : Option Nat := none
deriving Repr, DecidableEq

instance : Inhabited RawRes := ⟨{}⟩

/-- One decoded DIDL `item` element. -/
structure RawItem where
  id : String
  title : Option String := none
  artist : Option String := none
  album : Option String := none
  res : XmlVal RawRes := .absent
  genre : Option String := none
deriving Repr, DecidableEq

/-- One decoded DIDL `container` element. -/
structure RawContainer where
  id : String
  parentID : Option String := none
  title : Option String := none
  classAttr : Option String := none
  childCount : Option Nat := none
deriving Repr, DecidableEq

/-- The decoded content of the `DIDL-Lite` root element. -/
structure Didl where
  container : XmlVal RawContainer := .absent
  item : XmlVal RawItem := .absent
deriving Repr, DecidableEq

/-- A transformed container node (`transformDIDLData`). -/
structure Container where
  id : String
  parentID : Option String := none
  title : Option String := none
  classAttr : Option String := none
  childCount : Option Nat := none
deriving Repr, DecidableEq

/-- The derived quality sub-record attached to an enriched item. -/
structure Quality where
  encoding : String
  label : String
  tier : String
  bitDepth : String
  sampleRate : String
  bitrate : Option String := none
deriving Repr, DecidableEq

/-- A catalog item: the mapped DIDL fields plus the optional enrichment
fields (`albumArtUrl`, `quality`, `date`, `composer`, `lyrics`). -/
structure Item where
  id : String
  title : String
  artist : String
  album : String
  duration : Option String := none
  url : Option String := none
  genre : Option String := none
  bitrate : Option Nat := none
  nrAudioChannels : Option Nat := none
  albumArtUrl : Option String := none
  quality : Option Quality := none
  date : Option String := none
  composer : Option String := none
  lyrics : Option String := none
deriving Repr, DecidableEq

/-- The `metadata` sub-record of a persisted snapshot. -/
structure Metadata where
  lastUpdated : Option String := none
  totalContainers : Option Nat := none
  totalItems : Option Nat := none
deriving Repr, DecidableEq

/-- The persisted catalog snapshot.  The `/api/browse` handler stores the raw
remote container value (`didl["DIDL-Lite"].container || cached.containers`),
so snapshot containers keep the decoded-XML shape; a lone decoded container
object is normalised to a one-element list in this model. -/
structure Snapshot where
  containers : List RawContainer := []
  items : List Item := []
  metadata : Metadata := {}
deriving Repr, DecidableEq

/-- Default snapshot created by the front-end `readDatabase`
(`{ containers: [], items: [], metadata: { lastUpdated: null } }`). -/
def defaultData : Snapshot := {}

/-! ## Database helpers (`vite.config.js:86-130`) -/

/-- Input shape accepted by the front-end `writeDatabase`: each of the
`containers` and `items` fields is a JS value that may be missing
(`undefined`), a lone decoded object (a single XML element stored wholesale
by the merge — `XmlVal.one`), or an array (`XmlVal.many`). -/
structure WriteInput where
  containers : XmlVal RawContainer := .absent
  items : XmlVal Item := .absent
deriving Repr, DecidableEq

/-- Models `data.x || []` on such a field: the absent (falsy) value defaults
to the empty array; a lone object and an array are truthy and pass through. -/
def jsOrEmptyArr {α : Type} : XmlVal α → XmlVal α
  | .absent => .many []
  | v => v

/-- Models the number `data.x?.length || 0` computes on such a field: an
array yields its length; on `undefined` and on a lone object (which has no
`length` property) the read gives `undefined`, and `undefined || 0` is 0. -/
def jsLenOrZero {α : Type} : XmlVal α → Nat
  | .many l => l.length
  | _ => 0

/-- Models the JS read `v.length` used when checking the counter invariant
on a persisted document: a number for an array, `undefined` (`none`) for a
lone object (and for an absent value). -/
def jsLenProp {α : Type} : XmlVal α → Option Nat
  | .many l => some l.length
  | _ => none

/-- The JSON document the front-end `writeDatabase` puts on disk: the
(possibly lone-object) `containers`/`items` values plus the stamped
metadata. -/
structure PersistedDoc where
  containers : XmlVal RawContainer
  items : XmlVal Item
  metadata : Metadata
deriving Repr, DecidableEq

/-- Embeds the front-end `writeDatabase` (`vite.config.js:113-130`): the
persisted document defaults missing fields to `[]`
(`data.containers || []`), stamps `lastUpdated` and recomputes
`totalContainers`/`totalItems` as `data.containers?.length || 0` — which is
0 when the field holds a lone decoded object rather than an array. -/
def writeDatabase (data : WriteInput) (now : String) : PersistedDoc :=
  { containers := jsOrEmptyArr data.containers
    items := jsOrEmptyArr data.items
    metadata :=
      { lastUpdated := some now
        totalContainers := some (jsLenOrZero data.containers)
        totalItems := some (jsLenOrZero data.items) } }

/-- The counter invariant of the claim, read with JS semantics over a
persisted document: `metadata.totalItems == items.length` and
`metadata.totalContainers == containers.length` (a lone object's `length`
is `undefined`, which compares false against every number). -/
def persistedCountersOk (d : PersistedDoc) : Prop :=
  d.metadata.totalItems = jsLenProp d.items ∧
  d.metadata.totalContainers = jsLenProp d.containers

/-- Legacy-or-modern result of `JSON.parse` on the database file, as
discriminated by the front-end `readDatabase` (`parsed.lastUpdated &&
!parsed.metadata` selects the legacy shape). -/
inductive ParsedDb where
  | legacy (containers : List RawContainer) (items : List Item) (lastUpdated : Option String)
  | modern (snap : Snapshot)

/-- Embeds the front-end `readDatabase` (`vite.config.js:86-111`).  The file
system state is the pair (`fileExists`, `raw` content); JSON parsing of
non-empty content is the `parse` oracle.  The result pairs the returned
snapshot with the document passed through `writeDatabase` when the function
(re)initializes the file, `none` when it does not write. -/
def readDatabase (parse : String → Except String ParsedDb) (fileExists : Bool)
    (raw : String) (now : String) : Except String (Snapshot × Option PersistedDoc) :=
  if !fileExists then
    .ok (defaultData,
      some (writeDatabase { containers := .many [], items := .many [] } now))
  else if jsTrim raw = "" then
    .ok (defaultData,
      some (writeDatabase { containers := .many [], items := .many [] } now))
  else
    match parse raw with
    | .error e => .error e
    | .ok (.legacy cs its lu) =>
        .ok ({ containers := cs, items := its, metadata := { lastUpdated := lu } }, none)
    | .ok (.modern s) => .ok (s, none)

/-! ## Back-end database helpers (`server.js:21-34`) -/

/-- The back-end snapshot shape: a top-level `lastUpdated` and whatever
`metadata` object the document happens to carry (the back-end never writes
one itself). -/
structure ServerData where
  containers : List RawContainer := []
  items : List Item := []
  metadata : Option Metadata := none
  lastUpdated : Option String := none
deriving Repr, DecidableEq

/-- Embeds the back-end `writeDatabase` (`server.js:29-34`):
`JSON.stringify({ ...data, lastUpdated: new Date() })` — the input is
persisted unchanged apart from the `lastUpdated` stamp; no counters are
computed. -/
def serverWriteDatabase (data : ServerData) (now : String) : ServerData :=
  { data with lastUpdated := some now }

/-- Predicate taken verbatim from the claim under verification: the persisted
document satisfies `metadata.totalItems == items.length` and
`metadata.totalContainers == containers.length`. -/
def serverCountersOk (s : ServerData) : Prop :=
  s.metadata.bind Metadata.totalItems = some s.items.length ∧
  s.metadata.bind Metadata.totalContainers = some s.containers.length

/-- Models `JSON.parse`: it throws on input containing no JSON value at all
(in particular the empty or whitespace-only string); parsing of actual
content is the `oracle` parameter. -/
def jsonParse (oracle : String → Except String ServerData) (raw : String) :
    Except String ServerData :=
  if jsTrim raw = "" then .error "Unexpected end of JSON input" else oracle raw

/-- Default back-end document (`{ containers: [], items: [], lastUpdated: null }`). -/
def serverDefault : ServerData :=
  { containers := [], items := [], metadata := none, lastUpdated := none }

/-- Embeds the back-end `readDatabase` (`server.js:21-27`): an absent file
yields the default document *without* reinitializing the file; otherwise the
raw content goes straight to `JSON.parse` with no emptiness check. -/
def serverReadDatabase (oracle : String → Except String ServerData)
    (fileExists : Bool) (raw : String) : Except String ServerData :=
  if !fileExists then
    .ok serverDefault
  else
    jsonParse oracle raw

/-! ## Fetch results and tunable constants

`fetchWithTimeout(url, options, timeout)` aborts the request after `timeout`
milliseconds.  A fetch is modelled as an oracle receiving the timeout it was
issued with and returning `none` when it threw (network error, abort) or
`some` response.  `resp.ok` is by definition `200 ≤ status < 300`. -/

/-- Timeout of the metadata prefix fetch (`vite.config.js:228`, third
argument to `fetchWithTimeout`). -/
def audioMetadataFetchTimeout : Nat := 5000

/-- Timeout of the album-art ranged GET (`vite.config.js:261`). -/
def albumArtFetchTimeout : Nat := 1000

/-- Timeout of the album-art HEAD request (`vite.config.js:255`). -/
def artHeadTimeout : Nat := 5000

/-- End-offset cap of the album-art ranged GET (`vite.config.js:259`). -/
def getAlbumArtCap : Nat := 14505936

/-- Concurrency batch size of the enrichment loop (`vite.config.js:304`). -/
def batchLimit : Nat := 15

/-- A GET response: status, `Content-Type` header and body bytes. -/
structure FetchResp where
  status : Nat
  contentType : Option String := none
  body : List Nat := []
deriving Repr, DecidableEq

/-- Models `resp.ok`. -/
def respOk (r : FetchResp) : Bool :=
  decide (200 ≤ r.status) && decide (r.status < 300)

/-- A HEAD response: status and `Content-Length` header. -/
structure HeadResp where
  status : Nat
  contentLength : Option String := none
deriving Repr, DecidableEq

/-- Models `head.ok`. -/
def headRespOk (h : HeadResp) : Bool :=
  decide (200 ≤ h.status) && decide (h.status < 300)

/-! ## `music-metadata` parse results -/

/-- The `format` part of an `mm.parseBuffer` result. -/
structure MMFormat where
  bitsPerSample : Option Nat := none
  sampleRate : Option Nat := none
deriving Repr, DecidableEq

/-- The `common` part of an `mm.parseBuffer` result (tag fields). -/
structure MMCommon where
  date : Option String := none
  composer : Option String := none
  lyrics : Option String := none
deriving Repr, DecidableEq

/-- An `mm.parseBuffer` result for the metadata probe. -/
structure MMResult where
  format : MMFormat := {}
  common : MMCommon := {}
deriving Repr, DecidableEq

/-- An embedded picture as reported by `mm.parseBuffer` with covers enabled
(`meta.common.picture[i]`); `description` may be absent. -/
structure ArtPic where
  format : String
  data : List Nat := []
  description : Option String := none
deriving Repr, DecidableEq

/-! ## MediaProbe (`getAudioMetadata`, `vite.config.js:226-251`) -/

/-- The derived technical-metadata record returned by the probe. -/
structure AudioMeta where
  bitDepth : Option Nat := none
  sampleRate : Option Nat := none
  bitDepthLabel : Option String := none
  sampleRateLabel : Option String := none
  date : Option String := none
  composer : Option String := none
  lyrics : Option String := none
deriving Repr, DecidableEq

/-- Models `` `${(sampleRate / 1000).toFixed(1)}kHz` `` by decimal rounding
to one fractional digit (the JS computation goes through a binary double,
which coincides with decimal rounding for real-world sample rates). -/
def sampleRateLabelOf (n : Nat) : String :=
  let tenths := (n + 50) / 100
  toString (tenths / 10) ++ "." ++ toString (tenths % 10) ++ "kHz"

/-- Embeds `getAudioMetadata` (`vite.config.js:226-251`): a range-limited
fetch with a 5000 ms timeout; any fetch error, a status that is neither a
2xx success nor `206`, or a parse failure is caught and returns `null`;
otherwise the nullable technical fields are derived from the parse result
(`0`/`""` are falsy and collapse to `null`). -/
def getAudioMetadata (fetch : Nat → Option FetchResp) (parseResult : Option MMResult) :
    Option AudioMeta :=
  match fetch audioMetadataFetchTimeout with
  | none => none
  | some resp =>
    if !respOk resp && resp.status != 206 then none
    else
      match parseResult with
      | none => none
      | some meta =>
        some { bitDepth := jsNumOrNull meta.format.bitsPerSample
               sampleRate := jsNumOrNull meta.format.sampleRate
               bitDepthLabel := (jsNumOrNull meta.format.bitsPerSample).map
                 (fun n => toString n ++ "-bit")
               sampleRateLabel := (jsNumOrNull meta.format.sampleRate).map sampleRateLabelOf
               date := jsStrOrNull meta.common.date
               composer := jsStrOrNull meta.common.composer
               lyrics := jsStrOrNull meta.common.lyrics }

/-! ## CoverArtExtractor, front strategy (`getAlbumArt`, `vite.config.js:253-272`) -/

/-- Embeds `getAlbumArt` (`vite.config.js:253-272`): HEAD the URL with a
5000 ms timeout; on a non-ok HEAD return `null`; compute the range end as
`min(contentLength - 1, 14505936)` (or the raw cap when `Content-Length`
does not parse); GET the range `0..end` with a 1000 ms timeout; parse with
covers enabled; return the first embedded picture, or `null` when the parse
fails, the container holds no picture, or any fetch fails. -/
def getAlbumArt (headFetch : Nat → Option HeadResp) (get : Int → Nat → Option FetchResp)
    (parse : List Nat → Option (Option (List ArtPic))) : Option Picture :=
  match headFetch artHeadTimeout with
  | none => none
  | some h =>
    if !headRespOk h then none
    else
      let e : Int :=
        match jsParseInt h.contentLength with
        | none => (getAlbumArtCap : Int)
        | some n => min ((n : Int) - 1) (getAlbumArtCap : Int)
      match get e albumArtFetchTimeout with
      | none => none
      | some resp =>
        if !respOk resp && resp.status != 206 then none
        else
          match parse resp.body with
          | none => none
          | some pics =>
            match pics.bind List.head? with
            | none => none
            | some p =>
              some { format := p.format, data := p.data,
                     description := jsOrStr p.description "Album Art" }

/-! ## Album-art file naming and caching (`vite.config.js:143-147, 199-221`) -/

/-- Directory holding extracted album art, relative to the process working
directory (`path.join(publicDir, "album-art")`). -/
def albumArtDir : String := "public/album-art"

/-- Filesystem-unsafe characters stripped by `createFileName`
(the regex `[<>:"/\\|?*]`). -/
def fsUnsafeChars : List Char := ['<', '>', ':', '"', '/', '\\', '|', '?', '*']

/-- Collapses every whitespace run to a single space (the regex
replace `\s+` → `" "`). -/
def collapseWs : List Char → List Char
  | [] => []
  | c :: rest =>
    if c.isWhitespace then ' ' :: collapseWs (rest.dropWhile Char.isWhitespace)
    else c :: collapseWs rest
termination_by l => l.length
decreasing_by
  · simp only [List.length_cons]
    exact Nat.lt_succ_of_le ((List.dropWhile_suffix _).sublist.length_le)
  · simp only [List.length_cons]
    exact Nat.lt_succ_self _

/-- Embeds `createFileName` (`vite.config.js:143-147`): prepend the artist
when it is truthy and not `"Unknown"`, append the date in parentheses when
truthy, strip filesystem-unsafe characters, collapse whitespace, trim, and
cap at 200 characters. -/
def createFileName (title : String) (date : Option String) (artist : String) : String :=
  let name := if artist ≠ "" && artist ≠ "Unknown" then artist ++ " - " ++ title else title
  let name :=
    match jsStrOrNull date with
    | some d => name ++ " (" ++ d ++ ")"
    | none => name
  let name := String.mk (collapseWs (name.toList.filter (fun c => !fsUnsafeChars.contains c)))
  String.mk ((jsTrim name).toList.take 200)

/-- Embeds `checkAlbumArtCache` (`vite.config.js:199-206`): probe
`album-art/<name>.<ext>` for each accepted extension and return the public
URL of the first existing file, else `null`. -/
def checkAlbumArtCache (fsExists : String → Bool) (ip port : String)
    (title : String) (date : Option String) (artist : String) : Option String :=
  let name := createFileName title date artist
  (["jpg", "jpeg", "png"].find? fun ext =>
      fsExists (albumArtDir ++ "/" ++ name ++ "." ++ ext)).map
    fun ext => ip ++ ":" ++ port ++ "/public/album-art/" ++ name ++ "." ++ ext

/-- Embeds `saveAlbumArtToFile` (`vite.config.js:208-221`): derive the
extension from the picture MIME type (`format.split("/")[1] || "jpg"`); if a
same-named file already exists return its public path without writing;
otherwise write it (a write error is caught and yields `null`). -/
def saveAlbumArtToFile (fsExists : String → Bool) (writeOk : String → Bool)
    (albumArt : Picture) (filename : String) : Option String :=
  let ext := jsOrStr ((albumArt.format.splitOn "/").get? 1) "jpg"
  let fullName := filename ++ "." ++ ext
  let file := albumArtDir ++ "/" ++ fullName
  if fsExists file then some ("/public/album-art/" ++ fullName)
  else if writeOk file then some ("/public/album-art/" ++ fullName)
  else none

/-! ## Enrichment environment -/

/-- Modelled from the spec: `classifyAudioQuality` lives in
`src/ultis/ClassifyAudioQuality.js`, which both servers import but which is
not among the provided sources.  The spec describes the QualityClassifier as
a "pure function mapping technical metadata + stream bitrate to a
human-facing quality tier/label" — an assumed collaborator producing an
`{encoding, label, tier}` record of display strings. -/
structure QualityInfo where
  encoding : String
  label : String
  tier : String
deriving Repr, DecidableEq

/-- Server configuration (`process.env.IP`, `process.env.PORT`) used to build
absolute art URLs. -/
structure Config where
  ip : String
  port : String
deriving Repr, DecidableEq

/-- The effect oracles consumed by one enrichment pass: per-URL fetch and
parse outcomes, the filesystem, and the (spec-modelled, assumed-given)
quality classifier. -/
structure EnrichEnv where
  metaFetch : Option String → Nat → Option FetchResp
  metaParse : Option String → Option MMResult
  artHead : Option String → Nat → Option HeadResp
  artGet : Option String → Int → Nat → Option FetchResp
  artParse : Option String → List Nat → Option (Option (List ArtPic))
  fsExists : String → Bool
  writeOk : String → Bool
  classify : AudioMeta → Option Nat → QualityInfo

/-! ## Transform DIDL data (`transformDIDLData`, `vite.config.js:277-355`) -/

/-- Maps one raw DIDL item to the un-enriched item record
(`vite.config.js:286-299`): `ensureArray(i.res)[0] || {}` resolves the first
`res` element, falsy strings default to `"Unknown"`/`null`. -/
def mapRawItem (i : RawItem) : Item :=
  let res := (ensureArrayX i.res).headD {}
  { id := i.id
    title := jsOrStr i.title "Unknown"
    artist := jsOrStr i.artist "Unknown"
    album := jsOrStr i.album "Unknown"
    duration := jsStrOrNull res.duration
    url := res.text
    genre := i.genre
    bitrate := res.bitrate
    nrAudioChannels := res.nrAudioChannels }

/-- Embeds the per-item enrichment closure inside `transformDIDLData`
(`vite.config.js:310-347`): probe the URL, resolve album art (cache first,
then `getAlbumArt` + save, then the default placeholder), then attach the
quality record and the truthy optional tag fields when the probe succeeded. -/
def enrichItem (env : EnrichEnv) (cfg : Config) (item : Item) : Item :=
  let meta := getAudioMetadata (env.metaFetch item.url) (env.metaParse item.url)
  let dateForFile := jsStrOrNull (meta.bind AudioMeta.date)
  let artUrl :=
    match checkAlbumArtCache env.fsExists cfg.ip cfg.port item.title dateForFile item.artist with
    | some u => u
    | none =>
      match getAlbumArt (env.artHead item.url) (env.artGet item.url) (env.artParse item.url) with
      | some art =>
        match saveAlbumArtToFile env.fsExists env.writeOk art
            (createFileName item.title dateForFile item.artist) with
        | some saved => cfg.ip ++ ":" ++ cfg.port ++ saved
        | none => cfg.ip ++ ":" ++ cfg.port ++ "/public/default.png"
      | none => cfg.ip ++ ":" ++ cfg.port ++ "/public/default.png"
  match meta with
  | none => { item with albumArtUrl := some artUrl }
  | some m =>
    { item with
      albumArtUrl := some artUrl
      quality := some
        { encoding := (env.classify m item.bitrate).encoding
          label := (env.classify m item.bitrate).label
          tier := (env.classify m item.bitrate).tier
          bitDepth := jsOrStr m.bitDepthLabel "16-bit"
          sampleRate := jsOrStr m.sampleRateLabel "44.1kHz"
          bitrate := formatBitrate item.bitrate }
      date := match jsStrOrNull m.date with | some d => some d | none => item.date
      composer := match jsStrOrNull m.composer with | some c => some c | none => item.composer
      lyrics := match jsStrOrNull m.lyrics with | some l => some l | none => item.lyrics }

/-- Embeds the batched enrichment loop (`vite.config.js:303-352`): slices of
`LIMIT = 15` items are enriched and collected positionally, batches running
in sequence. -/
def transformBatches (env : EnrichEnv) (cfg : Config) (l : List Item) : List Item :=
  if h : l.isEmpty then []
  else
    (l.take batchLimit).map (enrichItem env cfg) ++ transformBatches env cfg (l.drop batchLimit)
termination_by l.length
decreasing_by
  simp only [List.length_drop]
  have hb : 0 < batchLimit := by decide
  have hl : 0 < l.length := by
    cases l with
    | nil => simp at h
    | cons a t => simp
  omega

/-- Result of `transformDIDLData`: transformed containers and (possibly
enriched) items. -/
structure Transformed where
  containers : List Container := []
  items : List Item := []
deriving Repr, DecidableEq

/-- Embeds `transformDIDLData` (`vite.config.js:277-355`): map containers
and items from the decoded DIDL; when `includeMetadata` is set, run the
batched enrichment over the mapped items. -/
def transformDIDLData (env : EnrichEnv) (cfg : Config) (didl : Didl)
    (includeMetadata : Bool) : Transformed :=
  let containers := (ensureArrayX didl.container).map fun c =>
    ({ id := c.id, parentID := c.parentID, title := c.title,
       classAttr := c.classAttr, childCount := c.childCount } : Container)
  let rawItems := (ensureArrayX didl.item).map mapRawItem
  if !includeMetadata then { containers := containers, items := rawItems }
  else { containers := containers, items := transformBatches env cfg rawItems }

/-! ## JavaScript `Map` model

A JS `Map` is an insertion-ordered key-value store: `set` on an existing key
replaces the value in place, `set` on a new key appends, `get` returns the
value for the key, `values()` lists values in key-insertion order.  The
model is an association list with unique keys maintained by `jsMapSet`. -/

/-- Models `map.set(k, v)`. -/
def jsMapSet (m : List (String × Item)) (k : String) (v : Item) : List (String × Item) :=
  if m.any (fun p => p.1 = k) then m.map (fun p => if p.1 = k then (k, v) else p)
  else m ++ [(k, v)]

/-- Models `map.get(k)` (`undefined` when absent). -/
def jsMapGet (m : List (String × Item)) (k : String) : Option Item :=
  (m.find? (fun p => p.1 = k)).map Prod.snd

/-- Models `[...map.values()]`. -/
def jsMapValues (m : List (String × Item)) : List Item :=
  m.map Prod.snd

/-- Models the `for (const item of items) map.set(item.id, item)` overlay
loop. -/
def jsMapSetAll (m : List (String × Item)) (items : List Item) : List (String × Item) :=
  items.foldl (fun m' it => jsMapSet m' it.id it) m

/-- Models `new Map(items.map(i => [i.id, i]))` (the `Map` constructor
`set`s each pair in order, so a later duplicate id wins). -/
def itemMapOf (items : List Item) : List (String × Item) :=
  jsMapSetAll [] items

/-! ## CatalogDiffer (`/api/browse` handler, `vite.config.js:380-389`) -/

/-- Models `ensureArray(i.res)[0]?.["#text"]` — the resolved URL of a raw
DIDL item. -/
def resolvedUrl (i : RawItem) : Option String :=
  (ensureArrayX i.res).head?.bind RawRes.text

/-- The filter predicate of `itemsToScan` (`vite.config.js:381-386`): a raw
item must be re-scanned when the cache has no entry under its id, or the
cached entry differs in title or resolved URL. -/
def scanPred (cachedItems : List Item) (i : RawItem) : Bool :=
  match jsMapGet (itemMapOf cachedItems) i.id with
  | none => true
  | some c => !jsEqOptStr i.title c.title || decide (resolvedUrl i ≠ c.url)

/-- Embeds `itemsToScan` (`vite.config.js:381-386`). -/
def itemsToScan (cachedItems : List Item) (rawItems : List RawItem) : List RawItem :=
  rawItems.filter (scanPred cachedItems)

/-- Embeds `toRemove` (`vite.config.js:388-389`): every cached item whose id
is absent from the remote id set. -/
def toRemove (cachedItems : List Item) (rawItems : List RawItem) : List Item :=
  cachedItems.filter fun i => !(rawItems.map RawItem.id).contains i.id

/-! ## Merge step (`vite.config.js:402-416`) -/

/-- Embeds the merge map construction (`vite.config.js:402-406`): cached
items minus `toRemove`, keyed by id, overlaid in order with the freshly
transformed items. -/
def mergeItems (cachedItems : List Item) (rawItems : List RawItem)
    (newItems : List Item) : List (String × Item) :=
  jsMapSetAll
    (itemMapOf (cachedItems.filter fun i =>
      !((toRemove cachedItems rawItems).any fun r => r.id = i.id)))
    newItems

/-- Embeds `didl["DIDL-Lite"].container || cached.containers`
(`vite.config.js:409`): the raw remote container value wholesale, falling
back to the cached containers when the remote listing carries none (an
absent decoded value is falsy). -/
def mergedContainersOf (didl : Didl) (cached : Snapshot) : List RawContainer :=
  match didl.container with
  | .absent => cached.containers
  | v => ensureArrayX v

/-! ## CatalogSyncOrchestrator (`/api/browse/:id` handler, `vite.config.js:360-421`) -/

/-- Outcome of one browse/sync pass: the JSON response, the snapshot passed
through `writeDatabase` (`none` when the handler did not write), and the raw
items handed to the re-scan (`[]` on the cached short-circuit). -/
structure SyncResult where
  response : Snapshot
  written : Option PersistedDoc
  scanned : List RawItem
deriving Repr, DecidableEq

/-- The filtered DIDL document handed to `transformDIDLData`
(`vite.config.js:393-398`): the raw containers (`container || []`) and only
the items that must be re-scanned. -/
def filteredDidl (didl : Didl) (scan : List RawItem) : Didl :=
  { container := match didl.container with | .absent => .many [] | v => v
    item := .many scan }

/-- The non-cached branch of the handler (`vite.config.js:393-419`):
transform the changed items, merge, stamp metadata, persist, respond with
the merged snapshot. -/
def browseMerged (env : EnrichEnv) (cfg : Config) (cached : Snapshot) (didl : Didl)
    (includeMetadata : Bool) (now : String) : SyncResult :=
  let rawItems := ensureArrayX didl.item
  let scan := itemsToScan cached.items rawItems
  let newData := transformDIDLData env cfg (filteredDidl didl scan) includeMetadata
  let mergedMap := mergeItems cached.items rawItems newData.items
  let mergedContainers := mergedContainersOf didl cached
  let merged : Snapshot :=
    { containers := mergedContainers
      items := jsMapValues mergedMap
      metadata :=
        { lastUpdated := some now
          totalContainers := some mergedContainers.length
          totalItems := some mergedMap.length } }
  { response := merged
    written := some (writeDatabase
      { containers := .many merged.containers, items := .many merged.items } now)
    scanned := scan }

/-- Embeds the `/api/browse/:id` handler body after the SOAP fetch
(`vite.config.js:378-420`): diff the remote listing against the cache, short
circuit to the cached snapshot when nothing changed, otherwise run the merge
branch. -/
def browse (env : EnrichEnv) (cfg : Config) (cached : Snapshot) (didl : Didl)
    (includeMetadata : Bool) (now : String) : SyncResult :=
  if (itemsToScan cached.items (ensureArrayX didl.item)).isEmpty &&
     (toRemove cached.items (ensureArrayX didl.item)).isEmpty then
    { response := cached, written := none, scanned := [] }
  else browseMerged env cfg cached didl includeMetadata now

/-! ## Lemmas about the JS `Map` model -/

/-- The last item of `l` whose id is `k` — the value a JS `Map` built from
`l` keyed by id associates with `k`. -/
def lastWith (l : List Item) (k : String) : Option Item :=
  (l.filter fun i => i.id = k).getLast?

theorem jsMapGet_append_single (m : List (String × Item)) (k : String) (v : Item)
    (h : ∀ p ∈ m, p.1 ≠ k) : jsMapGet (m ++ [(k, v)]) k = some v := by
  unfold jsMapGet
  induction m with
  | nil => simp [List.find?_cons]
  | cons p t ih =>
    have hp : (decide (p.1 = k)) = false := by simp [h p (by simp)]
    simp only [List.cons_append, List.find?_cons, hp]
    exact ih fun q hq => h q (by simp [hq])

theorem jsMapGet_append_single_ne (m : List (String × Item)) (k : String) (v : Item)
    (k' : String) (h : k' ≠ k) : jsMapGet (m ++ [(k, v)]) k' = jsMapGet m k' := by
  unfold jsMapGet
  induction m with
  | nil =>
    have hne : ¬k = k' := fun hc => h hc.symm
    simp [List.find?_cons_of_neg, hne]
  | cons p t ih =>
    by_cases hp : p.1 = k'
    · simp [List.find?_cons_of_pos, hp]
    · simpa [List.find?_cons_of_neg, hp] using ih

theorem jsMapGet_mapReplace_self (m : List (String × Item)) (k : String) (v : Item)
    (h : m.any (fun p => p.1 = k) = true) :
    jsMapGet (m.map fun p => if p.1 = k then (k, v) else p) k = some v := by
  unfold jsMapGet
  induction m with
  | nil => simp at h
  | cons p t ih =>
    by_cases hp : p.1 = k
    · simp [hp]
    · have ht : t.any (fun p => p.1 = k) = true := by
        simp only [List.any_cons, hp] at h
        simpa using h
      simpa [hp] using ih ht

theorem jsMapGet_mapReplace_ne (m : List (String × Item)) (k : String) (v : Item)
    (k' : String) (h : k' ≠ k) :
    jsMapGet (m.map fun p => if p.1 = k then (k, v) else p) k' = jsMapGet m k' := by
  unfold jsMapGet
  induction m with
  | nil => simp
  | cons p t ih =>
    by_cases hp : p.1 = k
    · have h1 : ¬k = k' := fun hc => h hc.symm
      have h2 : ¬p.1 = k' := by
        intro hc; exact h (hc ▸ hp ▸ rfl)
      simpa [hp, h1, h2] using ih
    · by_cases hp' : p.1 = k'
      · have e1 : List.find? (fun q => decide (q.1 = k'))
            ((p :: t).map fun q => if q.1 = k then (k, v) else q) = some p := by
          rw [List.map_cons, if_neg hp]
          exact List.find?_cons_of_pos _ (by simpa using hp')
        have e2 : List.find? (fun q => decide (q.1 = k')) (p :: t) = some p :=
          List.find?_cons_of_pos _ (by simpa using hp')
        rw [e1, e2]
      · simpa [hp, hp'] using ih

theorem jsMapGet_set_self (m : List (String × Item)) (k : String) (v : Item) :
    jsMapGet (jsMapSet m k v) k = some v := by
  unfold jsMapSet
  by_cases h : m.any (fun p => p.1 = k)
  · simp only [h, if_true]
    exact jsMapGet_mapReplace_self m k v h
  · simp only [h, if_false]
    apply jsMapGet_append_single
    intro p hp hk
    exact h (List.any_eq_true.mpr ⟨p, hp, by simp [hk]⟩)

theorem jsMapGet_set_ne (m : List (String × Item)) (k : String) (v : Item)
    (k' : String) (h : k' ≠ k) : jsMapGet (jsMapSet m k v) k' = jsMapGet m k' := by
  unfold jsMapSet
  by_cases hm : m.any (fun p => p.1 = k)
  · simp only [hm, if_true]
    exact jsMapGet_mapReplace_ne m k v k' h
  · simp only [hm, if_false]
    exact jsMapGet_append_single_ne m k v k' h

/-- First-defined alternative on options (the shape of "overlay wins"). -/
def orElseO (a b : Option Item) : Option Item :=
  match a with
  | some x => some x
  | none => b

theorem lastWith_nil (k : String) : lastWith [] k = none := rfl

theorem lastWith_cons (i : Item) (t : List Item) (k : String) :
    lastWith (i :: t) k = orElseO (lastWith t k) (if i.id = k then some i else none) := by
  unfold lastWith orElseO
  by_cases hi : i.id = k
  · rw [List.filter_cons_of_pos (by simpa using hi)]
    cases hft : (t.filter fun j => j.id = k) with
    | nil => simp [hft, hi]
    | cons a l =>
      rw [List.getLast?_cons_cons]
      cases hgl : (a :: l).getLast? with
      | none =>
        rw [List.getLast?_eq_none_iff] at hgl
        simp at hgl
      | some j => rfl
  · rw [List.filter_cons_of_neg (by simpa using hi)]
    cases hft : (t.filter fun j => j.id = k) with
    | nil => simp [hft, hi]
    | cons a l =>
      cases hgl : (a :: l).getLast? with
      | none =>
        rw [List.getLast?_eq_none_iff] at hgl
        simp at hgl
      | some j => rfl

theorem lastWith_eq_none_iff (l : List Item) (k : String) :
    lastWith l k = none ↔ ∀ i ∈ l, i.id ≠ k := by
  unfold lastWith
  rw [List.getLast?_eq_none_iff, List.filter_eq_nil_iff]
  simp

theorem mem_of_lastWith_eq_some {l : List Item} {k : String} {v : Item}
    (h : lastWith l k = some v) : v ∈ l ∧ v.id = k := by
  unfold lastWith at h
  have hm := List.mem_of_getLast?_eq_some h
  rw [List.mem_filter] at hm
  exact ⟨hm.1, by simpa using hm.2⟩

theorem jsMapGet_setAll (items : List Item) (m : List (String × Item)) (k : String) :
    jsMapGet (jsMapSetAll m items) k = orElseO (lastWith items k) (jsMapGet m k) := by
  induction items generalizing m with
  | nil => simp [jsMapSetAll, lastWith_nil, orElseO]
  | cons i t ih =>
    have step : jsMapSetAll m (i :: t) = jsMapSetAll (jsMapSet m i.id i) t := rfl
    rw [step, ih, lastWith_cons]
    cases hlt : lastWith t k with
    | some j => simp [orElseO]
    | none =>
      by_cases hi : i.id = k
      · simp only [orElseO, hi, if_pos]
        rw [← hi, jsMapGet_set_self]
      · simp only [orElseO, hi, if_neg, if_false]
        exact jsMapGet_set_ne m i.id i k (fun hc => hi hc.symm)

theorem jsMapGet_itemMapOf (l : List Item) (k : String) :
    jsMapGet (itemMapOf l) k = lastWith l k := by
  unfold itemMapOf
  rw [jsMapGet_setAll]
  cases lastWith l k <;> simp [orElseO, jsMapGet]

/-- Structural invariant of every map the handler builds: each entry is
keyed by its value's id, and keys are unique. -/
def goodMap (m : List (String × Item)) : Prop :=
  (∀ p ∈ m, p.1 = p.2.id) ∧ (m.map Prod.fst).Nodup

theorem goodMap_nil : goodMap [] := ⟨by simp, by simp⟩

theorem goodMap_set {m : List (String × Item)} (h : goodMap m) (it : Item) :
    goodMap (jsMapSet m it.id it) := by
  unfold jsMapSet
  by_cases hm : m.any (fun p => p.1 = it.id)
  · rw [if_pos hm]
    constructor
    · intro p hp
      rw [List.mem_map] at hp
      obtain ⟨q, hq, hfq⟩ := hp
      by_cases hq1 : q.1 = it.id
      · rw [if_pos hq1] at hfq
        simp [← hfq]
      · rw [if_neg hq1] at hfq
        exact hfq ▸ h.1 q hq
    · have : ((m.map fun p => if p.1 = it.id then (it.id, it) else p).map Prod.fst) =
          m.map Prod.fst := by
        rw [List.map_map]
        apply List.map_congr_left
        intro p hp
        by_cases hq1 : p.1 = it.id
        · simp [hq1]
        · simp [hq1]
      rw [this]
      exact h.2
  · rw [if_neg hm]
    constructor
    · intro p hp
      rw [List.mem_append] at hp
      rcases hp with hp | hp
      · exact h.1 p hp
      · simp only [List.mem_singleton] at hp
        simp [hp]
    · rw [List.map_append]
      refine h.2.append (by simp) ?_
      intro k hk hk'
      simp only [List.map_cons, List.map_nil, List.mem_singleton] at hk'
      subst hk'
      rw [List.mem_map] at hk
      obtain ⟨p, hp, hfp⟩ := hk
      exact hm (List.any_eq_true.mpr ⟨p, hp, by simp [hfp]⟩)

theorem goodMap_setAll {m : List (String × Item)} (h : goodMap m) (items : List Item) :
    goodMap (jsMapSetAll m items) := by
  induction items generalizing m with
  | nil => exact h
  | cons i t ih => exact ih (goodMap_set h i)

theorem goodMap_itemMapOf (l : List Item) : goodMap (itemMapOf l) :=
  goodMap_setAll goodMap_nil l

theorem mem_of_jsMapGet_eq_some {m : List (String × Item)} {k : String} {v : Item}
    (h : jsMapGet m k = some v) : (k, v) ∈ m := by
  unfold jsMapGet at h
  cases hf : m.find? (fun p => p.1 = k) with
  | none => rw [hf] at h; simp at h
  | some p =>
    rw [hf] at h
    simp only [Option.map_some'] at h
    have h1 := List.find?_some hf
    have h2 := List.mem_of_find?_eq_some hf
    simp only [decide_eq_true_eq] at h1
    have : p = (k, v) := by
      cases p with
      | mk a b =>
        simp only at h1 h
        simp only [Option.some_inj] at h
        simp [h1, h]
    exact this ▸ h2

theorem jsMapGet_eq_some_of_mem {m : List (String × Item)} (h : goodMap m)
    {k : String} {v : Item} (hm : (k, v) ∈ m) : jsMapGet m k = some v := by
  induction m with
  | nil => simp at hm
  | cons p t ih =>
    unfold jsMapGet
    by_cases hp : p.1 = k
    · rw [List.find?_cons_of_pos _ (by simpa using hp)]
      simp only [Option.map_some']
      rcases List.mem_cons.mp hm with hm1 | hm1
      · simp [← hm1]
      · exfalso
        have : k ∈ t.map Prod.fst := List.mem_map.mpr ⟨(k, v), hm1, rfl⟩
        have hnd := h.2
        simp only [List.map_cons, List.nodup_cons] at hnd
        exact hnd.1 (hp ▸ this)
    · rw [List.find?_cons_of_neg _ (by simpa using hp)]
      rcases List.mem_cons.mp hm with hm1 | hm1
      · exact absurd (by simp [← hm1] : p.1 = k) hp
      · have ht : goodMap t := by
          refine ⟨fun q hq => h.1 q (by simp [hq]), ?_⟩
          have hnd := h.2
          simp only [List.map_cons, List.nodup_cons] at hnd
          exact hnd.2
        exact ih ht hm1

theorem mem_values_iff {m : List (String × Item)} (h : goodMap m) (i : Item) :
    i ∈ jsMapValues m ↔ jsMapGet m i.id = some i := by
  constructor
  · intro hv
    unfold jsMapValues at hv
    rw [List.mem_map] at hv
    obtain ⟨p, hp, hsnd⟩ := hv
    have hk := h.1 p hp
    have : (i.id, i) ∈ m := by
      have : p = (i.id, i) := by
        cases p with
        | mk a b => simp only at hsnd hk; simp [hsnd ▸ hk, hsnd]
      exact this ▸ hp
    exact jsMapGet_eq_some_of_mem h this
  · intro hg
    have := mem_of_jsMapGet_eq_some hg
    exact List.mem_map.mpr ⟨(i.id, i), this, rfl⟩

theorem keys_jsMapSet_subset {m : List (String × Item)} {k : String} {v : Item}
    {k' : String} (h : k' ∈ (jsMapSet m k v).map Prod.fst) :
    k' ∈ m.map Prod.fst ∨ k' = k := by
  unfold jsMapSet at h
  by_cases hm : m.any (fun p => p.1 = k)
  · rw [if_pos hm] at h
    rw [List.map_map, List.mem_map] at h
    obtain ⟨p, hp, hfp⟩ := h
    by_cases hpk : p.1 = k
    · right; simp [hpk] at hfp; exact hfp.symm
    · left; simp only [Function.comp, if_neg hpk] at hfp
      exact List.mem_map.mpr ⟨p, hp, hfp⟩
  · rw [if_neg hm] at h
    rw [List.map_append, List.mem_append] at h
    rcases h with h | h
    · exact Or.inl h
    · simp at h; exact Or.inr h

theorem keys_setAll_subset {m : List (String × Item)} {items : List Item} {k : String}
    (h : k ∈ (jsMapSetAll m items).map Prod.fst) :
    k ∈ m.map Prod.fst ∨ k ∈ items.map Item.id := by
  induction items generalizing m with
  | nil => exact Or.inl h
  | cons i t ih =>
    have step : jsMapSetAll m (i :: t) = jsMapSetAll (jsMapSet m i.id i) t := rfl
    rw [step] at h
    rcases ih h with h1 | h1
    · rcases keys_jsMapSet_subset h1 with h2 | h2
      · exact Or.inl h2
      · exact Or.inr (by simp [h2])
    · exact Or.inr (by simp [h1])

theorem keys_itemMapOf_subset {l : List Item} {k : String}
    (h : k ∈ (itemMapOf l).map Prod.fst) : k ∈ l.map Item.id := by
  rcases keys_setAll_subset h with h1 | h1
  · simp at h1
  · exact h1

theorem jsMapSetAll_append_of_disjoint (items : List Item) (m : List (String × Item))
    (hd : ∀ i ∈ items, i.id ∉ m.map Prod.fst)
    (hnd : (items.map Item.id).Nodup) :
    jsMapSetAll m items = m ++ items.map (fun i => (i.id, i)) := by
  induction items generalizing m with
  | nil => simp [jsMapSetAll]
  | cons i t ih =>
    have hset : jsMapSet m i.id i = m ++ [(i.id, i)] := by
      unfold jsMapSet
      have hnone : (m.any fun p => p.1 = i.id) = false := by
        rw [List.any_eq_false]
        intro p hp
        simp only [decide_eq_true_eq]
        intro hc
        exact hd i (by simp) (hc ▸ List.mem_map_of_mem Prod.fst hp)
      rw [hnone]
      simp
    have step : jsMapSetAll m (i :: t) = jsMapSetAll (jsMapSet m i.id i) t := rfl
    rw [step, hset, ih (m ++ [(i.id, i)]) ?_ ?_]
    · simp
    · intro j hj
      simp only [List.map_append, List.mem_append, not_or]
      constructor
      · exact hd j (by simp [hj])
      · simp only [List.map_cons, List.map_nil, List.mem_singleton]
        intro hc
        simp only [List.map_cons, List.nodup_cons] at hnd
        exact hnd.1 (hc ▸ List.mem_map_of_mem Item.id hj)
    · simp only [List.map_cons, List.nodup_cons] at hnd
      exact hnd.2

theorem itemMapOf_of_nodup (l : List Item) (hnd : (l.map Item.id).Nodup) :
    itemMapOf l = l.map fun i => (i.id, i) := by
  unfold itemMapOf
  rw [jsMapSetAll_append_of_disjoint l [] (by simp) hnd]
  simp

theorem values_pair {m : List (String × Item)} (h : ∀ p ∈ m, p.1 = p.2.id) :
    (jsMapValues m).map (fun i => (i.id, i)) = m := by
  unfold jsMapValues
  rw [List.map_map]
  conv_rhs => rw [← List.map_id m]
  apply List.map_congr_left
  intro p hp
  cases p with
  | mk a b =>
    have := h (a, b) hp
    simp only at this
    simp [Function.comp, ← this]

theorem values_ids_eq_keys {m : List (String × Item)} (h : ∀ p ∈ m, p.1 = p.2.id) :
    (jsMapValues m).map Item.id = m.map Prod.fst := by
  unfold jsMapValues
  rw [List.map_map]
  apply List.map_congr_left
  intro p hp
  exact (h p hp).symm

theorem itemMapOf_values {m : List (String × Item)} (h : goodMap m) :
    itemMapOf (jsMapValues m) = m := by
  have hnd : ((jsMapValues m).map Item.id).Nodup := by
    rw [values_ids_eq_keys h.1]
    exact h.2
  rw [itemMapOf_of_nodup _ hnd, values_pair h.1]

/-! ## Lemmas about the enrichment pipeline -/

theorem transformBatches_eq (env : EnrichEnv) (cfg : Config) (l : List Item) :
    transformBatches env cfg l = l.map (enrichItem env cfg) := by
  have H : ∀ n (l : List Item), l.length ≤ n →
      transformBatches env cfg l = l.map (enrichItem env cfg) := by
    intro n
    induction n with
    | zero =>
      intro l hl
      have hnil : l = [] := List.length_eq_zero.mp (Nat.le_zero.mp hl)
      subst hnil
      rw [transformBatches]
      simp
    | succ n ih =>
      intro l hl
      rw [transformBatches]
      by_cases he : l.isEmpty
      · have hnil : l = [] := by
          cases l with
          | nil => rfl
          | cons a t => simp at he
        subst hnil
        simp
      · rw [dif_neg he]
        have h1 : 0 < l.length := by
          cases l with
          | nil => simp at he
          | cons a t => simp
        have hb : 0 < batchLimit := by decide
        rw [ih (l.drop batchLimit) (by rw [List.length_drop]; omega)]
        conv_rhs => rw [← List.take_append_drop batchLimit l]
        rw [List.map_append]
  exact H l.length l le_rfl

theorem mapRawItem_id (r : RawItem) : (mapRawItem r).id = r.id := rfl

theorem mapRawItem_title (r : RawItem) :
    (mapRawItem r).title = jsOrStr r.title "Unknown" := rfl

theorem mapRawItem_url (r : RawItem) : (mapRawItem r).url = resolvedUrl r := by
  unfold mapRawItem resolvedUrl
  cases h : ensureArrayX r.res <;> simp [h]

theorem enrichItem_id (env : EnrichEnv) (cfg : Config) (i : Item) :
    (enrichItem env cfg i).id = i.id := by
  unfold enrichItem
  cases h : getAudioMetadata (env.metaFetch i.url) (env.metaParse i.url) <;> simp [h]

theorem enrichItem_title (env : EnrichEnv) (cfg : Config) (i : Item) :
    (enrichItem env cfg i).title = i.title := by
  unfold enrichItem
  cases h : getAudioMetadata (env.metaFetch i.url) (env.metaParse i.url) <;> simp [h]

theorem enrichItem_url (env : EnrichEnv) (cfg : Config) (i : Item) :
    (enrichItem env cfg i).url = i.url := by
  unfold enrichItem
  cases h : getAudioMetadata (env.metaFetch i.url) (env.metaParse i.url) <;> simp [h]

theorem enrichItem_albumArtUrl_isSome (env : EnrichEnv) (cfg : Config) (i : Item) :
    ((enrichItem env cfg i).albumArtUrl).isSome = true := by
  unfold enrichItem
  cases h : getAudioMetadata (env.metaFetch i.url) (env.metaParse i.url) <;> simp [h]

theorem enrichItem_quality_none (env : EnrichEnv) (cfg : Config) (i : Item)
    (h : getAudioMetadata (env.metaFetch i.url) (env.metaParse i.url) = none) :
    (enrichItem env cfg i).quality = i.quality := by
  unfold enrichItem
  rw [h]

theorem enrichItem_quality_some (env : EnrichEnv) (cfg : Config) (i : Item)
    (m : AudioMeta)
    (h : getAudioMetadata (env.metaFetch i.url) (env.metaParse i.url) = some m) :
    (enrichItem env cfg i).quality = some
      { encoding := (env.classify m i.bitrate).encoding
        label := (env.classify m i.bitrate).label
        tier := (env.classify m i.bitrate).tier
        bitDepth := jsOrStr m.bitDepthLabel "16-bit"
        sampleRate := jsOrStr m.sampleRateLabel "44.1kHz"
        bitrate := formatBitrate i.bitrate } := by
  unfold enrichItem
  rw [h]

theorem enrichItem_albumArtUrl_default (env : EnrichEnv) (cfg : Config) (i : Item)
    (hfs : ∀ s, env.fsExists s = false)
    (hhead : ∀ t, env.artHead i.url t = none) :
    (enrichItem env cfg i).albumArtUrl =
      some (cfg.ip ++ ":" ++ cfg.port ++ "/public/default.png") := by
  have hcache : ∀ d, checkAlbumArtCache env.fsExists cfg.ip cfg.port i.title d i.artist
      = none := by
    intro d
    unfold checkAlbumArtCache
    simp [hfs]
  have hart : getAlbumArt (env.artHead i.url) (env.artGet i.url) (env.artParse i.url)
      = none := by
    unfold getAlbumArt
    rw [hhead]
  unfold enrichItem
  simp only [hcache, hart]
  cases h : getAudioMetadata (env.metaFetch i.url) (env.metaParse i.url) <;> simp [h]

/-! ## Lemmas about the diff predicate -/

theorem scanPred_eq_true_iff (cachedItems : List Item) (r : RawItem) :
    scanPred cachedItems r = true ↔
      jsMapGet (itemMapOf cachedItems) r.id = none ∨
      ∃ c, jsMapGet (itemMapOf cachedItems) r.id = some c ∧
        (jsEqOptStr r.title c.title = false ∨ resolvedUrl r ≠ c.url) := by
  unfold scanPred
  cases hg : jsMapGet (itemMapOf cachedItems) r.id with
  | none => simp
  | some c =>
    simp only [Bool.or_eq_true, Bool.not_eq_true', decide_eq_true_eq]
    constructor
    · rintro (h1 | h1)
      · exact Or.inr ⟨c, rfl, Or.inl h1⟩
      · exact Or.inr ⟨c, rfl, Or.inr h1⟩
    · rintro (h1 | ⟨c', hc', h1 | h1⟩)
      · simp at h1
      · obtain rfl : c' = c := by simpa using hc'.symm
        exact Or.inl h1
      · obtain rfl : c' = c := by simpa using hc'.symm
        exact Or.inr h1

theorem scanPred_eq_false_iff (cachedItems : List Item) (r : RawItem) :
    scanPred cachedItems r = false ↔
      ∃ c, jsMapGet (itemMapOf cachedItems) r.id = some c ∧
        jsEqOptStr r.title c.title = true ∧ resolvedUrl r = c.url := by
  unfold scanPred
  cases hg : jsMapGet (itemMapOf cachedItems) r.id with
  | none => simp
  | some c =>
    simp only [Bool.or_eq_false_iff, Bool.not_eq_false', decide_eq_false_iff_not, not_not]
    constructor
    · rintro ⟨h1, h2⟩
      exact ⟨c, rfl, h1, h2⟩
    · rintro ⟨c', hc', h1, h2⟩
      obtain rfl : c' = c := by simpa using hc'.symm
      exact ⟨h1, h2⟩

theorem scanPred_congr (cachedItems : List Item) (r r' : RawItem)
    (hid : r.id = r'.id) (ht : r.title = r'.title) (hu : resolvedUrl r = resolvedUrl r') :
    scanPred cachedItems r = scanPred cachedItems r' := by
  unfold scanPred
  rw [hid, ht, hu]

/-! ## More `lastWith` helpers -/

theorem lastWith_filter (l : List Item) (p : Item → Bool) (k : String)
    (hp : ∀ i, i.id = k → p i = true) :
    lastWith (l.filter p) k = lastWith l k := by
  unfold lastWith
  rw [List.filter_filter]
  congr 1
  apply List.filter_congr
  intro i hi
  by_cases hik : i.id = k
  · simp [hik, hp i hik]
  · simp [hik]

theorem lastWith_map_of_nodup (l : List RawItem) (g : RawItem → Item)
    (hg : ∀ r, (g r).id = r.id) (hnd : (l.map RawItem.id).Nodup)
    (r : RawItem) (hr : r ∈ l) :
    lastWith (l.map g) r.id = some (g r) := by
  induction l with
  | nil => simp at hr
  | cons a t ih =>
    simp only [List.map_cons, List.nodup_cons] at hnd
    rcases List.mem_cons.mp hr with rfl | hrt
    · have hnone : lastWith (t.map g) r.id = none := by
        rw [lastWith_eq_none_iff]
        intro i hi
        rw [List.mem_map] at hi
        obtain ⟨s, hs, rfl⟩ := hi
        rw [hg s]
        intro hc
        exact hnd.1 (hc ▸ List.mem_map_of_mem RawItem.id hs)
      rw [List.map_cons, lastWith_cons, hnone]
      simp [orElseO, hg r]
    · rw [List.map_cons, lastWith_cons, ih hnd.2 hrt]
      simp [orElseO]

theorem lastWith_map_of_not_mem (l : List RawItem) (g : RawItem → Item)
    (hg : ∀ r, (g r).id = r.id) (k : String)
    (hk : ∀ r ∈ l, r.id ≠ k) :
    lastWith (l.map g) k = none := by
  rw [lastWith_eq_none_iff]
  intro i hi
  rw [List.mem_map] at hi
  obtain ⟨s, hs, rfl⟩ := hi
  rw [hg s]
  exact hk s hs

theorem rawItem_eq_of_id_eq {l : List RawItem} (hnd : (l.map RawItem.id).Nodup)
    {a b : RawItem} (ha : a ∈ l) (hb : b ∈ l) (hid : a.id = b.id) : a = b :=
  List.inj_on_of_nodup_map hnd ha hb hid

/-! ## Lemmas about the merge step -/

theorem goodMap_mergeItems (cachedItems : List Item) (rawItems : List RawItem)
    (newItems : List Item) : goodMap (mergeItems cachedItems rawItems newItems) :=
  goodMap_setAll (goodMap_itemMapOf _) newItems

theorem jsMapGet_mergeItems (cachedItems : List Item) (rawItems : List RawItem)
    (newItems : List Item) (k : String) :
    jsMapGet (mergeItems cachedItems rawItems newItems) k =
      orElseO (lastWith newItems k)
        (if (rawItems.map RawItem.id).contains k then lastWith cachedItems k
         else none) := by
  unfold mergeItems
  rw [jsMapGet_setAll, jsMapGet_itemMapOf]
  congr 1
  by_cases hk : (rawItems.map RawItem.id).contains k
  · rw [if_pos hk]
    apply lastWith_filter
    intro i hik
    rw [Bool.not_eq_true']
    rw [List.any_eq_false]
    intro rm hrm
    simp only [decide_eq_true_eq]
    intro hc
    unfold toRemove at hrm
    rw [List.mem_filter] at hrm
    have h2 := hrm.2
    rw [Bool.not_eq_true'] at h2
    rw [hc, hik] at h2
    rw [h2] at hk
    exact absurd hk (by simp)
  · rw [if_neg hk]
    rw [lastWith_eq_none_iff]
    intro i hi hik
    rw [List.mem_filter] at hi
    have hrm : i ∈ toRemove cachedItems rawItems := by
      unfold toRemove
      rw [List.mem_filter]
      refine ⟨hi.1, ?_⟩
      rw [Bool.not_eq_true']
      rw [hik]
      simpa using hk
    have h2 := hi.2
    rw [Bool.not_eq_true'] at h2
    rw [List.any_eq_false] at h2
    have := h2 i hrm
    simp at this

theorem mergeItems_keys_subset (cachedItems : List Item) (rawItems : List RawItem)
    (newItems : List Item)
    (hnew : ∀ i ∈ newItems, i.id ∈ rawItems.map RawItem.id) :
    ∀ k ∈ (mergeItems cachedItems rawItems newItems).map Prod.fst,
      k ∈ rawItems.map RawItem.id := by
  intro k hk
  unfold mergeItems at hk
  rcases keys_setAll_subset hk with h1 | h1
  · have h2 := keys_itemMapOf_subset h1
    rw [List.mem_map] at h2
    obtain ⟨i, hi, rfl⟩ := h2
    rw [List.mem_filter] at hi
    by_contra hc
    have hrm : i ∈ toRemove cachedItems rawItems := by
      unfold toRemove
      rw [List.mem_filter]
      refine ⟨hi.1, ?_⟩
      rw [Bool.not_eq_true']
      simpa using hc
    have h2 := hi.2
    rw [Bool.not_eq_true', List.any_eq_false] at h2
    have := h2 i hrm
    simp at this
  · rw [List.mem_map] at h1
    obtain ⟨i, hi, rfl⟩ := h1
    exact hnew i hi

/-! ## Stability of a merged snapshot under an unchanged remote listing -/

theorem transform_items_eq (env : EnrichEnv) (cfg : Config) (didl : Didl)
    (scan : List RawItem) (im : Bool) :
    (transformDIDLData env cfg (filteredDidl didl scan) im).items =
      scan.map (fun r => if im then enrichItem env cfg (mapRawItem r) else mapRawItem r) := by
  unfold transformDIDLData filteredDidl
  cases im with
  | false => simp [ensureArrayX]
  | true => simp [ensureArrayX, transformBatches_eq, List.map_map, Function.comp]

theorem gfun_id (env : EnrichEnv) (cfg : Config) (im : Bool) (r : RawItem) :
    ((if im then enrichItem env cfg (mapRawItem r) else mapRawItem r) : Item).id = r.id := by
  cases im <;> simp [enrichItem_id, mapRawItem_id]

theorem gfun_title (env : EnrichEnv) (cfg : Config) (im : Bool) (r : RawItem) :
    ((if im then enrichItem env cfg (mapRawItem r) else mapRawItem r) : Item).title =
      jsOrStr r.title "Unknown" := by
  cases im <;> simp [enrichItem_title, mapRawItem_title]

theorem gfun_url (env : EnrichEnv) (cfg : Config) (im : Bool) (r : RawItem) :
    ((if im then enrichItem env cfg (mapRawItem r) else mapRawItem r) : Item).url =
      resolvedUrl r := by
  cases im <;> simp [enrichItem_url, mapRawItem_url]

theorem merged_no_rescan (env : EnrichEnv) (cfg : Config) (cached : Snapshot) (didl : Didl)
    (im : Bool)
    (hnd : ((ensureArrayX didl.item).map RawItem.id).Nodup)
    (hT : ∀ r ∈ ensureArrayX didl.item, r.title.getD "" ≠ "") :
    itemsToScan
        (jsMapValues (mergeItems cached.items (ensureArrayX didl.item)
          (transformDIDLData env cfg
            (filteredDidl didl (itemsToScan cached.items (ensureArrayX didl.item))) im).items))
        (ensureArrayX didl.item) = [] ∧
    toRemove
        (jsMapValues (mergeItems cached.items (ensureArrayX didl.item)
          (transformDIDLData env cfg
            (filteredDidl didl (itemsToScan cached.items (ensureArrayX didl.item))) im).items))
        (ensureArrayX didl.item) = [] := by
  set raw := ensureArrayX didl.item with hraw
  set scan := itemsToScan cached.items raw with hscandef
  set newItems := (transformDIDLData env cfg (filteredDidl didl scan) im).items with hni
  set M := mergeItems cached.items raw newItems with hM
  set g : RawItem → Item :=
    fun r => if im then enrichItem env cfg (mapRawItem r) else mapRawItem r with hgdef
  have hnew : newItems = scan.map g := transform_items_eq env cfg didl scan im
  have hgid : ∀ r, (g r).id = r.id := gfun_id env cfg im
  have hgtitle : ∀ r, (g r).title = jsOrStr r.title "Unknown" := gfun_title env cfg im
  have hgurl : ∀ r, (g r).url = resolvedUrl r := gfun_url env cfg im
  have hscan_eq : scan = raw.filter (scanPred cached.items) := rfl
  have hscan_nd : (scan.map RawItem.id).Nodup := by
    rw [hscan_eq]
    exact hnd.sublist ((List.filter_sublist raw).map RawItem.id)
  have hGoodM : goodMap M := goodMap_mergeItems _ _ _
  have hgetM : ∀ k, jsMapGet (itemMapOf (jsMapValues M)) k = jsMapGet M k := by
    intro k
    rw [itemMapOf_values hGoodM]
  constructor
  · unfold itemsToScan
    rw [List.filter_eq_nil_iff]
    intro r hr
    rw [Bool.not_eq_true]
    rw [scanPred_eq_false_iff]
    by_cases hsp : scanPred cached.items r = true
    · have hrscan : r ∈ scan := by
        rw [hscan_eq]
        exact List.mem_filter.mpr ⟨hr, hsp⟩
      have hlast : lastWith newItems r.id = some (g r) := by
        rw [hnew]
        exact lastWith_map_of_nodup scan g hgid hscan_nd r hrscan
      have hget : jsMapGet M r.id = some (g r) := by
        rw [hM, jsMapGet_mergeItems, hlast]
        rfl
      refine ⟨g r, by rw [hgetM]; exact hget, ?_, (hgurl r).symm⟩
      rw [hgtitle]
      have htr := hT r hr
      cases hti : r.title with
      | none => simp [hti] at htr
      | some t =>
        have ht' : ¬t = "" := by simpa [hti] using htr
        simp [jsEqOptStr, jsOrStr, ht']
    · have hspf : scanPred cached.items r = false := by
        simpa using hsp
      obtain ⟨c₀, hc₀, htt, huu⟩ := (scanPred_eq_false_iff cached.items r).mp hspf
      have hlastnew : lastWith newItems r.id = none := by
        rw [hnew]
        apply lastWith_map_of_not_mem scan g hgid
        intro s hs hsid
        have hsr : s = r := by
          apply rawItem_eq_of_id_eq hnd _ hr hsid
          rw [hscan_eq] at hs
          exact (List.mem_filter.mp hs).1
        subst hsr
        rw [hscan_eq] at hs
        have := (List.mem_filter.mp hs).2
        rw [hspf] at this
        exact Bool.false_ne_true this
      have hcontains : (raw.map RawItem.id).contains r.id = true := by
        have hmm : r.id ∈ raw.map RawItem.id := List.mem_map_of_mem RawItem.id hr
        simpa using hmm
      have hget : jsMapGet M r.id = some c₀ := by
        rw [hM, jsMapGet_mergeItems, hlastnew, hcontains]
        rw [jsMapGet_itemMapOf] at hc₀
        simp [orElseO, hc₀]
      exact ⟨c₀, by rw [hgetM]; exact hget, htt, huu⟩
  · unfold toRemove
    rw [List.filter_eq_nil_iff]
    intro i hi
    rw [Bool.not_eq_true, Bool.not_eq_false']
    have hmem : jsMapGet M i.id = some i := (mem_values_iff hGoodM i).mp hi
    have hpair := mem_of_jsMapGet_eq_some hmem
    have hkey : i.id ∈ M.map Prod.fst := List.mem_map_of_mem Prod.fst hpair
    have hnewids : ∀ j ∈ newItems, j.id ∈ raw.map RawItem.id := by
      intro j hj
      rw [hnew, List.mem_map] at hj
      obtain ⟨s, hs, rfl⟩ := hj
      rw [hgid]
      rw [hscan_eq] at hs
      exact List.mem_map_of_mem _ (List.mem_filter.mp hs).1
    have hin := mergeItems_keys_subset cached.items raw newItems hnewids i.id hkey
    simpa using hin

/-! ## Browse-level lemmas -/

theorem browse_short_circuit (env : EnrichEnv) (cfg : Config) (cached : Snapshot)
    (didl : Didl) (im : Bool) (now : String)
    (h1 : itemsToScan cached.items (ensureArrayX didl.item) = [])
    (h2 : toRemove cached.items (ensureArrayX didl.item) = []) :
    browse env cfg cached didl im now =
      { response := cached, written := none, scanned := [] } := by
  unfold browse
  rw [h1, h2]
  rfl

theorem browse_changed (env : EnrichEnv) (cfg : Config) (cached : Snapshot)
    (didl : Didl) (im : Bool) (now : String)
    (h : ¬(itemsToScan cached.items (ensureArrayX didl.item) = [] ∧
           toRemove cached.items (ensureArrayX didl.item) = [])) :
    browse env cfg cached didl im now = browseMerged env cfg cached didl im now := by
  unfold browse
  rw [if_neg]
  intro hc
  rw [Bool.and_eq_true, List.isEmpty_iff, List.isEmpty_iff] at hc
  exact h hc

theorem browseMerged_response (env : EnrichEnv) (cfg : Config) (cached : Snapshot)
    (didl : Didl) (im : Bool) (now : String) :
    (browseMerged env cfg cached didl im now).response =
      { containers := mergedContainersOf didl cached
        items := jsMapValues (mergeItems cached.items (ensureArrayX didl.item)
          (transformDIDLData env cfg
            (filteredDidl didl (itemsToScan cached.items (ensureArrayX didl.item))) im).items)
        metadata :=
          { lastUpdated := some now
            totalContainers := some (mergedContainersOf didl cached).length
            totalItems := some (mergeItems cached.items (ensureArrayX didl.item)
              (transformDIDLData env cfg
                (filteredDidl didl (itemsToScan cached.items (ensureArrayX didl.item)))
                im).items).length } } := rfl

/-! ## Lemmas for the trailing APIC scan -/

theorem byteIndexOfFrom_none_mono (buf pat : List Nat)
    (h : byteIndexOfFrom buf pat 0 = -1) (s : Nat) :
    byteIndexOfFrom buf pat s = -1 := by
  unfold byteIndexOfFrom at h ⊢
  cases hf : (List.range (buf.length + 1)).find?
      (fun i => decide (0 ≤ i) && patternAt buf pat i) with
  | some i =>
    rw [hf] at h
    simp at h
  | none =>
    rw [List.find?_eq_none] at hf
    cases hf2 : (List.range (buf.length + 1)).find?
        (fun i => decide (s ≤ i) && patternAt buf pat i) with
    | none => rfl
    | some j =>
      exfalso
      have hj := List.find?_some hf2
      have hjm := List.mem_of_find?_eq_some hf2
      rw [Bool.and_eq_true] at hj
      exact hf j hjm (by simp [hj.2])

theorem scanAPIC_wellformed (buffer : List Nat) (p a size m d : Nat)
    (hI : byteIndexOfFrom buffer id3Marker 0 = (p : Int))
    (hA : byteIndexOfFrom buffer apicMarker p = (a : Int))
    (hSz : readUInt32BE buffer (a + 4) = some size)
    (hM : byteIndexOfFrom buffer [0] (a + 11) = (m : Int))
    (hD : byteIndexOfFrom buffer [0] (m + 2) = (d : Int)) :
    scanAPIC buffer = some
      { format :=
          if bytesToString (bufRange buffer ((a + 11 : Nat) : Int) ((m : Nat) : Int)) = ""
          then "image/jpeg"
          else bytesToString (bufRange buffer ((a + 11 : Nat) : Int) ((m : Nat) : Int))
        data := jsSlice buffer (d + 1) (a + size)
        description := "Scanned Album Art" } := by
  have hif1 : ¬(((p : Int)) = -1) := by omega
  have hif2 : ¬(((a : Int)) = -1) := by omega
  have hm2 : (((m : Int)) + 1).toNat + 1 = m + 2 := by omega
  have hd1 : (((d : Int)) + 1).toNat = d + 1 := by omega
  have htn : ∀ n : Nat, ((n : Int)).toNat = n := fun n => Int.toNat_natCast n
  simp only [scanAPIC, hI, hif1, if_false, htn, hA, hif2, hSz, hM, hm2, hD, hd1]

/-! ## Concrete buffers -/

/-- A well-formed trailing APIC buffer: `"ID3"` at 0, `"APIC"` at 3, declared
frame size 20, empty flags, encoding byte, MIME `"a"` with its NUL at 15,
picture type 3, empty description with its NUL at 17, then five payload
bytes; total length 23 = APIC offset (3) + declared size (20). -/
def c5buf : List Nat :=
  [73, 68, 51, 65, 80, 73, 67, 0, 0, 0, 20, 0, 0, 0, 97, 0, 3, 0, 9, 8, 7, 6, 5]

/-! ## Claim theorems -/

/-- C10: `ensureArray` is total and normalizes the XML decoding of repeated
elements: every array input passes through unchanged, every falsy input
(`null`, `undefined`, `""`, `0`) yields the empty list, every other value is
wrapped in a one-element list; consequently a DIDL payload whose decoded
`item` (or `container`) is a lone object is transformed by
`transformDIDLData` exactly like the one-element list. -/
theorem C10_ensureArray_normalization :
    (∀ l : List JSValue, ensureArray (JSValue.arr l) = l) ∧
    (∀ v : JSValue, truthy v = false → ensureArray v = []) ∧
    (∀ v : JSValue, truthy v = true → isArray v = false → ensureArray v = [v]) ∧
    (ensureArray JSValue.null = [] ∧ ensureArray JSValue.undef = [] ∧
     ensureArray (JSValue.str "") = [] ∧ ensureArray (JSValue.num 0) = []) ∧
    (∀ (env : EnrichEnv) (cfg : Config) (c : XmlVal RawContainer) (r : RawItem) (im : Bool),
      transformDIDLData env cfg { container := c, item := XmlVal.one r } im =
      transformDIDLData env cfg { container := c, item := XmlVal.many [r] } im) ∧
    (∀ (env : EnrichEnv) (cfg : Config) (c : RawContainer) (it : XmlVal RawItem) (im : Bool),
      transformDIDLData env cfg { container := XmlVal.one c, item := it } im =
      transformDIDLData env cfg { container := XmlVal.many [c], item := it } im) := by
  refine ⟨fun l => rfl, ?_, ?_, ⟨rfl, rfl, rfl, rfl⟩,
    fun env cfg c r im => rfl, fun env cfg c it im => rfl⟩
  · intro v hv
    cases v <;> simp_all [ensureArray, truthy]
  · intro v hv hna
    cases v <;> simp_all [ensureArray, truthy, isArray]

/-- C10 witness: the empty string (falsy) collapses to `[]`, and a lone
truthy object is wrapped into a one-element list. -/
theorem C10_ensureArray_normalization_witness :
    ensureArray (JSValue.str "") = [] ∧
    ensureArray (JSValue.obj []) = [JSValue.obj []] :=
  ⟨C10_ensureArray_normalization.2.1 (JSValue.str "") rfl,
   C10_ensureArray_normalization.2.2.1 (JSValue.obj []) rfl rfl⟩

/-- C5 counterexample: on a well-formed buffer with declared APIC frame size
20, MIME `"a"` and empty description, the scan returns a payload of 5 bytes
(the slice from just past the description NUL up to APIC offset + 20), not
a payload of "exactly the declared frame length" 20. -/
theorem C5_trailing_scan_cex :
    readUInt32BE c5buf 7 = some 20 ∧
    (scanAPIC c5buf).map (fun pic => pic.data.length) = some 5 ∧
    (5 : Nat) ≠ 20 := by decide

/-- C5 (amended): for every buffer lacking the `"ID3"` marker, or lacking
the `"APIC"` marker, the trailing-scan extractor returns null without
throwing; for every buffer with the markers, a readable 4-byte big-endian
frame-size field, and NUL-terminated MIME-type and description sub-fields,
it returns a payload that starts at the offset just past the description's
NUL terminator and extends to APIC marker offset + declared frame size
(so its length is that difference, not the declared frame length itself). -/
theorem C5_trailing_scan_amended :
    (∀ buffer : List Nat, byteIndexOfFrom buffer id3Marker 0 = -1 →
      scanAPIC buffer = none) ∧
    (∀ buffer : List Nat, byteIndexOfFrom buffer apicMarker 0 = -1 →
      scanAPIC buffer = none) ∧
    (∀ (buffer : List Nat) (p a size m d : Nat),
      byteIndexOfFrom buffer id3Marker 0 = (p : Int) →
      byteIndexOfFrom buffer apicMarker p = (a : Int) →
      readUInt32BE buffer (a + 4) = some size →
      byteIndexOfFrom buffer [0] (a + 11) = (m : Int) →
      byteIndexOfFrom buffer [0] (m + 2) = (d : Int) →
      d + 1 ≤ a + size → a + size ≤ buffer.length →
      ∃ pic, scanAPIC buffer = some pic ∧
        pic.data = (buffer.take (a + size)).drop (d + 1) ∧
        pic.data.length = (a + size) - (d + 1) ∧
        pic.description = "Scanned Album Art") := by
  refine ⟨?_, ?_, ?_⟩
  · intro buffer h
    simp [scanAPIC, h]
  · intro buffer h
    by_cases hI : byteIndexOfFrom buffer id3Marker 0 = -1
    · simp [scanAPIC, hI]
    · have hA : byteIndexOfFrom buffer apicMarker
          (byteIndexOfFrom buffer id3Marker 0).toNat = -1 :=
        byteIndexOfFrom_none_mono buffer apicMarker h _
      simp [scanAPIC, hI, hA]
  · intro buffer p a size m d hI hA hSz hM hD hOrd hBound
    refine ⟨_, scanAPIC_wellformed buffer p a size m d hI hA hSz hM hD, rfl, ?_, rfl⟩
    show ((buffer.take (a + size)).drop (d + 1)).length = (a + size) - (d + 1)
    rw [List.length_drop, List.length_take]
    omega

/-- C5 witness: the well-formed concrete buffer `c5buf` (ID3 at 0, APIC at
3, size 20, MIME NUL at 15, description NUL at 17) yields the 5-byte slice
`[18, 23)`. -/
theorem C5_trailing_scan_amended_witness :
    ∃ pic, scanAPIC c5buf = some pic ∧
      pic.data = (c5buf.take 23).drop 18 ∧
      pic.data.length = 23 - 18 ∧
      pic.description = "Scanned Album Art" := by
  have h := C5_trailing_scan_amended.2.2 c5buf 0 3 20 15 17 (by decide) (by decide)
    (by decide) (by decide) (by decide) (by decide) (by decide)
  simpa using h

/-- A small concrete enriched item used in concrete counterexamples. -/
def c4Item : Item := { id := "1", title := "A", artist := "B", album := "C" }

/-- C4 counterexample: the back-end `writeDatabase` persists its input
unchanged apart from the `lastUpdated` stamp and computes no counters, so
after writing a one-item document the persisted `metadata.totalItems` is
absent rather than equal to `items.length = 1`. -/
theorem C4_write_counters_cex :
    ¬ serverCountersOk (serverWriteDatabase
      { containers := [], items := [c4Item], metadata := none, lastUpdated := none }
      "t") := by
  intro h
  simpa [serverCountersOk, serverWriteDatabase] using h.1

/-- Whether a JS containers/items value is a lone decoded object. -/
def isLoneObj {α : Type} : XmlVal α → Bool
  | .one _ => true
  | _ => false

/-- C4 (amended): after every write through the front-end `writeDatabase`
(the primary implementation), the persisted document satisfies
`metadata.totalItems == items.length` and
`metadata.totalContainers == containers.length` for every input whose
`containers` and `items` fields are arrays or absent; but when the
`containers` field holds a lone decoded container object (reachable when
the remote listing carries a single container, which the merge stores
wholesale), the object is persisted as-is while `totalContainers` is
stamped 0, and the invariant fails; the back-end `writeDatabase` does not
maintain these counters at all. -/
theorem C4_write_counters_amended :
    (∀ (data : WriteInput) (now : String),
      isLoneObj data.containers = false → isLoneObj data.items = false →
      persistedCountersOk (writeDatabase data now)) ∧
    (∀ (data : WriteInput) (now : String) (c : RawContainer),
      data.containers = .one c →
      (writeDatabase data now).containers = .one c ∧
      (writeDatabase data now).metadata.totalContainers = some 0 ∧
      ¬ persistedCountersOk (writeDatabase data now)) := by
  constructor
  · intro data now hc hi
    unfold persistedCountersOk writeDatabase
    constructor
    · cases hv : data.items with
      | absent => rfl
      | one i => rw [hv] at hi; simp [isLoneObj] at hi
      | many l => rfl
    · cases hv : data.containers with
      | absent => rfl
      | one c => rw [hv] at hc; simp [isLoneObj] at hc
      | many l => rfl
  · intro data now c h
    refine ⟨?_, ?_, ?_⟩
    · simp [writeDatabase, jsOrEmptyArr, h]
    · simp [writeDatabase, jsLenOrZero, h]
    · intro hok
      have h2 := hok.2
      simp [writeDatabase, jsOrEmptyArr, jsLenOrZero, jsLenProp, h] at h2

/-- C4 witness: a one-container array input satisfies the counters after the
write, while the same container as a lone decoded object is persisted with
`totalContainers` stamped 0, breaking the invariant. -/
theorem C4_write_counters_amended_witness :
    persistedCountersOk (writeDatabase
      { containers := .many [{ id := "c" }], items := .many [c4Item] } "t") ∧
    ¬ persistedCountersOk (writeDatabase
      { containers := .one { id := "c" }, items := .many [c4Item] } "t") :=
  ⟨C4_write_counters_amended.1
      { containers := .many [{ id := "c" }], items := .many [c4Item] } "t" rfl rfl,
   (C4_write_counters_amended.2
      { containers := .one { id := "c" }, items := .many [c4Item] } "t"
      { id := "c" } rfl).2.2⟩

/-- C9 counterexample: the back-end `readDatabase`, on an existing but empty
database file, feeds the empty content straight to `JSON.parse`, which
throws instead of returning an empty snapshot. -/
theorem C9_read_empty_cex :
    serverReadDatabase (fun _ => Except.ok serverDefault) true "" =
      Except.error "Unexpected end of JSON input" := by
  unfold serverReadDatabase jsonParse
  rw [if_neg (by simp), if_pos (by decide)]

/-- C9 (amended): the front-end `readDatabase` returns the empty snapshot
(empty containers and items) and reinitializes the file both when the file
is absent and when its content is blank; the back-end variant returns the
empty document without reinitializing when the file is absent, and
propagates the `JSON.parse` failure when the file exists but its content is
empty. -/
theorem C9_read_empty_amended :
    (∀ (parse : String → Except String ParsedDb) (raw now : String),
      readDatabase parse false raw now =
        .ok (defaultData,
          some (writeDatabase { containers := .many [], items := .many [] } now))) ∧
    (∀ (parse : String → Except String ParsedDb) (raw now : String), jsTrim raw = "" →
      readDatabase parse true raw now =
        .ok (defaultData,
          some (writeDatabase { containers := .many [], items := .many [] } now))) ∧
    (defaultData.containers = [] ∧ defaultData.items = []) ∧
    (∀ oracle : String → Except String ServerData,
      serverReadDatabase oracle false "" = .ok serverDefault) ∧
    (∀ (oracle : String → Except String ServerData) (raw : String), jsTrim raw = "" →
      ∃ e, serverReadDatabase oracle true raw = .error e) := by
  refine ⟨fun parse raw now => rfl, ?_, ⟨rfl, rfl⟩, fun oracle => rfl, ?_⟩
  · intro parse raw now h
    unfold readDatabase
    rw [if_neg (by simp), if_pos h]
  · intro oracle raw h
    unfold serverReadDatabase jsonParse
    rw [if_neg (by simp), if_pos h]
    exact ⟨_, rfl⟩

/-- C9 witness: a whitespace-only existing file is reinitialized to the
default snapshot by the front-end `readDatabase`. -/
theorem C9_read_empty_amended_witness :
    readDatabase (fun _ => Except.error "unused") true "  " "t" =
      .ok (defaultData,
        some (writeDatabase { containers := .many [], items := .many [] } "t")) :=
  C9_read_empty_amended.2.1 (fun _ => Except.error "unused") "  " "t" (by decide)

theorem jsNumOrNull_eq_none_iff (o : Option Nat) :
    jsNumOrNull o = none ↔ (o = none ∨ o = some 0) := by
  cases o with
  | none => simp [jsNumOrNull]
  | some n =>
    by_cases hn : n = 0 <;> simp [jsNumOrNull, hn]

theorem jsStrOrNull_eq_none_iff (o : Option String) :
    jsStrOrNull o = none ↔ (o = none ∨ o = some "") := by
  cases o with
  | none => simp [jsStrOrNull]
  | some s =>
    by_cases hs : s = "" <;> simp [jsStrOrNull, hs]

/-- C6: `getAudioMetadata` returns null rather than throwing when the prefix
fetch errors, when the response status is neither a 2xx success nor 206, and
when the tag parse fails; on success `bitDepth`, `sampleRate`, `date`,
`composer` and `lyrics` are each independently nullable (null exactly when
the corresponding parsed field is absent or falsy); and the enrichment step
substitutes the default display labels `"16-bit"` and `"44.1kHz"` when the
bit-depth or sample-rate labels are missing. -/
theorem C6_probe_degradation :
    (∀ (fetch : Nat → Option FetchResp) (p : Option MMResult),
      fetch audioMetadataFetchTimeout = none → getAudioMetadata fetch p = none) ∧
    (∀ (fetch : Nat → Option FetchResp) (p : Option MMResult) (resp : FetchResp),
      fetch audioMetadataFetchTimeout = some resp →
      respOk resp = false → resp.status ≠ 206 → getAudioMetadata fetch p = none) ∧
    (∀ (fetch : Nat → Option FetchResp) (resp : FetchResp),
      fetch audioMetadataFetchTimeout = some resp →
      getAudioMetadata fetch none = none) ∧
    (∀ (fetch : Nat → Option FetchResp) (resp : FetchResp) (mm : MMResult),
      fetch audioMetadataFetchTimeout = some resp →
      (respOk resp = true ∨ resp.status = 206) →
      ∃ meta, getAudioMetadata fetch (some mm) = some meta ∧
        (meta.bitDepth = none ↔
          (mm.format.bitsPerSample = none ∨ mm.format.bitsPerSample = some 0)) ∧
        (meta.sampleRate = none ↔
          (mm.format.sampleRate = none ∨ mm.format.sampleRate = some 0)) ∧
        (meta.date = none ↔ (mm.common.date = none ∨ mm.common.date = some "")) ∧
        (meta.composer = none ↔
          (mm.common.composer = none ∨ mm.common.composer = some "")) ∧
        (meta.lyrics = none ↔
          (mm.common.lyrics = none ∨ mm.common.lyrics = some ""))) ∧
    (∀ (env : EnrichEnv) (cfg : Config) (i : Item) (m : AudioMeta),
      getAudioMetadata (env.metaFetch i.url) (env.metaParse i.url) = some m →
      m.bitDepthLabel = none → m.sampleRateLabel = none →
      ∃ q, (enrichItem env cfg i).quality = some q ∧
        q.bitDepth = "16-bit" ∧ q.sampleRate = "44.1kHz") := by
  refine ⟨?_, ?_, ?_, ?_, ?_⟩
  · intro fetch p h
    unfold getAudioMetadata
    rw [h]
  · intro fetch p resp h h1 h2
    have hc : (!respOk resp && resp.status != 206) = true := by
      simp [h1, h2]
    simp [getAudioMetadata, h, hc]
  · intro fetch resp h
    by_cases hc : (!respOk resp && resp.status != 206) = true
    · simp [getAudioMetadata, h, hc]
    · simp [getAudioMetadata, h, hc]
  · intro fetch resp mm h hok
    have hc : (!respOk resp && resp.status != 206) = false := by
      rcases hok with hok | hok
      · simp [hok]
      · simp [hok]
    refine ⟨{ bitDepth := jsNumOrNull mm.format.bitsPerSample
              sampleRate := jsNumOrNull mm.format.sampleRate
              bitDepthLabel := (jsNumOrNull mm.format.bitsPerSample).map
                (fun n => toString n ++ "-bit")
              sampleRateLabel := (jsNumOrNull mm.format.sampleRate).map sampleRateLabelOf
              date := jsStrOrNull mm.common.date
              composer := jsStrOrNull mm.common.composer
              lyrics := jsStrOrNull mm.common.lyrics }, ?_, ?_, ?_, ?_, ?_, ?_⟩
    · simp [getAudioMetadata, h, hc]
    · exact jsNumOrNull_eq_none_iff mm.format.bitsPerSample
    · exact jsNumOrNull_eq_none_iff mm.format.sampleRate
    · exact jsStrOrNull_eq_none_iff mm.common.date
    · exact jsStrOrNull_eq_none_iff mm.common.composer
    · exact jsStrOrNull_eq_none_iff mm.common.lyrics
  · intro env cfg i m h hbd hsr
    refine ⟨_, enrichItem_quality_some env cfg i m h, ?_, ?_⟩
    · simp [hbd, jsOrStr]
    · simp [hsr, jsOrStr]

/-- C6 witness: a `206` partial-content response whose parse reports no
technical fields yields a metadata record with every nullable field null. -/
theorem C6_probe_degradation_witness :
    ∃ meta, getAudioMetadata (fun _ => some { status := 206 }) (some {}) = some meta ∧
      (meta.bitDepth = none ↔
        ((({} : MMResult)).format.bitsPerSample = none ∨
         (({} : MMResult)).format.bitsPerSample = some 0)) ∧
      (meta.sampleRate = none ↔
        ((({} : MMResult)).format.sampleRate = none ∨
         (({} : MMResult)).format.sampleRate = some 0)) ∧
      (meta.date = none ↔
        ((({} : MMResult)).common.date = none ∨ (({} : MMResult)).common.date = some "")) ∧
      (meta.composer = none ↔
        ((({} : MMResult)).common.composer = none ∨
         (({} : MMResult)).common.composer = some "")) ∧
      (meta.lyrics = none ↔
        ((({} : MMResult)).common.lyrics = none ∨
         (({} : MMResult)).common.lyrics = some "")) :=
  C6_probe_degradation.2.2.2.1 (fun _ => some { status := 206 }) { status := 206 } {}
    rfl (Or.inr rfl)

/-- C8 counterexample: the album-art ranged GET uses a 1000 ms timeout while
the MediaProbe prefix fetch uses 5000 ms — the art timeout is not strictly
longer. -/
theorem C8_art_fetch_cex :
    albumArtFetchTimeout = 1000 ∧ audioMetadataFetchTimeout = 5000 ∧
    ¬(albumArtFetchTimeout > audioMetadataFetchTimeout) := by decide

/-- C8 (amended): the prefix art strategy first issues a HEAD request
(returning null when it fails), then GETs the byte range from 0 to
`min(total size - 1, 14505936)` using a 1000 ms timeout — strictly SHORTER
than the MediaProbe 5000 ms fetch timeout, not longer — and returns the
first embedded picture found, or null when the parsed container holds no
picture. -/
theorem C8_art_strategy_amended :
    (albumArtFetchTimeout = 1000 ∧ audioMetadataFetchTimeout = 5000 ∧
      albumArtFetchTimeout < audioMetadataFetchTimeout) ∧
    (∀ (hd : Nat → Option HeadResp) (get : Int → Nat → Option FetchResp)
       (parse : List Nat → Option (Option (List ArtPic))),
      hd artHeadTimeout = none → getAlbumArt hd get parse = none) ∧
    (∀ (hd : Nat → Option HeadResp) (h : HeadResp)
       (get get' : Int → Nat → Option FetchResp)
       (parse : List Nat → Option (Option (List ArtPic))) (n : Nat),
      hd artHeadTimeout = some h → headRespOk h = true →
      jsParseInt h.contentLength = some n →
      get (min ((n : Int) - 1) (getAlbumArtCap : Int)) albumArtFetchTimeout =
        get' (min ((n : Int) - 1) (getAlbumArtCap : Int)) albumArtFetchTimeout →
      getAlbumArt hd get parse = getAlbumArt hd get' parse) ∧
    (∀ (hd : Nat → Option HeadResp) (h : HeadResp) (get : Int → Nat → Option FetchResp)
       (parse : List Nat → Option (Option (List ArtPic)))
       (resp : FetchResp) (n : Nat) (pics : List ArtPic),
      hd artHeadTimeout = some h → headRespOk h = true →
      jsParseInt h.contentLength = some n →
      get (min ((n : Int) - 1) (getAlbumArtCap : Int)) albumArtFetchTimeout = some resp →
      (respOk resp = true ∨ resp.status = 206) →
      parse resp.body = some (some pics) →
      getAlbumArt hd get parse =
        pics.head?.map (fun p =>
          ({ format := p.format, data := p.data,
             description := jsOrStr p.description "Album Art" } : Picture))) ∧
    (∀ (hd : Nat → Option HeadResp) (h : HeadResp) (get : Int → Nat → Option FetchResp)
       (parse : List Nat → Option (Option (List ArtPic)))
       (resp : FetchResp) (n : Nat),
      hd artHeadTimeout = some h → headRespOk h = true →
      jsParseInt h.contentLength = some n →
      get (min ((n : Int) - 1) (getAlbumArtCap : Int)) albumArtFetchTimeout = some resp →
      (respOk resp = true ∨ resp.status = 206) →
      parse resp.body = some none →
      getAlbumArt hd get parse = none) := by
  refine ⟨⟨rfl, rfl, by decide⟩, ?_, ?_, ?_, ?_⟩
  · intro hd get parse h
    unfold getAlbumArt
    rw [h]
  · intro hd h get get' parse n hhd hok hparse hEq
    simp only [getAlbumArt, hhd, hok, hparse, Bool.not_true, Bool.false_eq_true,
      if_false, hEq]
  · intro hd h get parse resp n pics hhd hok hparse hget hrok hp
    have hc : (!respOk resp && resp.status != 206) = false := by
      rcases hrok with hrok | hrok
      · simp [hrok]
      · simp [hrok]
    simp only [getAlbumArt, hhd, hok, hparse, Bool.not_true, Bool.false_eq_true,
      if_false, hget, hc, hp]
    cases hh : pics.head? with
    | none => simp [hh]
    | some p => simp [hh]
  · intro hd h get parse resp n hhd hok hparse hget hrok hp
    have hc : (!respOk resp && resp.status != 206) = false := by
      rcases hrok with hrok | hrok
      · simp [hrok]
      · simp [hrok]
    simp only [getAlbumArt, hhd, hok, hparse, Bool.not_true, Bool.false_eq_true,
      if_false, hget, hc, hp]
    rfl

/-- Concrete HEAD oracle for the C8 witness: total size 100 bytes. -/
def c8hd : Nat → Option HeadResp :=
  fun _ => some { status := 200, contentLength := some "100" }

/-- Concrete ranged-GET oracle for the C8 witness: answers only the range
ending at `min(100 - 1, cap) = 99` with the 1000 ms timeout. -/
def c8get : Int → Nat → Option FetchResp :=
  fun e t => if e = (99 : Int) ∧ t = 1000 then some { status := 206, body := [1] } else none

/-- Concrete parse oracle for the C8 witness: one embedded picture. -/
def c8parse : List Nat → Option (Option (List ArtPic)) :=
  fun _ => some (some [{ format := "image/png", data := [7, 8] }])

/-- C8 witness: with a 100-byte file the strategy GETs range `0..99` at the
1000 ms timeout and returns the first embedded picture with the default
description. -/
theorem C8_art_strategy_amended_witness :
    getAlbumArt c8hd c8get c8parse =
      some { format := "image/png", data := [7, 8], description := "Album Art" } := by
  have h := C8_art_strategy_amended.2.2.2.1 c8hd { status := 200, contentLength := some "100" }
    c8get c8parse { status := 206, body := [1] } 100
    [{ format := "image/png", data := [7, 8] }]
    rfl (by decide) (by decide) (by decide) (Or.inr rfl) rfl
  simpa [jsOrStr] using h

/-- C1: a freshly fetched remote item `r` is placed in `toScan` exactly when
the cached snapshot contains no item with `r`'s id, or the cached item the
lookup map associates with that id differs in title or in resolved URL (the
first `res` element's `#text`); moreover the scan predicate depends only on
the `(id, title, resolved URL)` fingerprint, so changing any other field
(genre, bitrate, ...) of an otherwise unchanged item never places it in
`toScan`. -/
theorem C1_diff_fingerprint :
    (∀ (cachedItems : List Item) (rawItems : List RawItem) (r : RawItem),
      r ∈ itemsToScan cachedItems rawItems ↔
        r ∈ rawItems ∧
          ((∀ c ∈ cachedItems, c.id ≠ r.id) ∨
           (∃ c, jsMapGet (itemMapOf cachedItems) r.id = some c ∧
             (jsEqOptStr r.title c.title = false ∨ resolvedUrl r ≠ c.url)))) ∧
    (∀ (cachedItems : List Item) (r r' : RawItem),
      r.id = r'.id → r.title = r'.title → resolvedUrl r = resolvedUrl r' →
      scanPred cachedItems r = scanPred cachedItems r') := by
  constructor
  · intro cachedItems rawItems r
    unfold itemsToScan
    rw [List.mem_filter]
    constructor
    · rintro ⟨hm, hp⟩
      refine ⟨hm, ?_⟩
      rcases (scanPred_eq_true_iff cachedItems r).mp hp with h | h
      · left
        rw [jsMapGet_itemMapOf, lastWith_eq_none_iff] at h
        exact h
      · right
        exact h
    · rintro ⟨hm, h⟩
      refine ⟨hm, ?_⟩
      rw [scanPred_eq_true_iff]
      rcases h with h | h
      · left
        rw [jsMapGet_itemMapOf, lastWith_eq_none_iff]
        exact h
      · right
        exact h
  · exact scanPred_congr

/-- Two raw items identical in id, title and resolved URL, differing only in
genre. -/
def c1RawA : RawItem := { id := "7", title := some "T", genre := some "rock" }

/-- Genre-variant twin of `c1RawA`. -/
def c1RawB : RawItem := { id := "7", title := some "T", genre := some "jazz" }

/-- C1 witness: the scan predicate is blind to the genre field. -/
theorem C1_diff_fingerprint_witness :
    scanPred [] c1RawA = scanPred [] c1RawB :=
  C1_diff_fingerprint.2 [] c1RawA c1RawB rfl rfl rfl

/-- C3: the merged map's lookup equals the cached items restricted to ids
present in the remote listing, overlaid by id with the freshly transformed
items (the fresh record winning on collision); any cached item whose id is
absent from the remote listing is absent from the merged values; the merged
item list is exactly the set of values the merged map associates with their
ids; and the merged containers are taken wholesale from the remote listing,
falling back to the cached containers when the remote listing carries none. -/
theorem C3_merge_semantics :
    (∀ (cachedItems : List Item) (rawItems : List RawItem) (newItems : List Item)
       (k : String),
      jsMapGet (mergeItems cachedItems rawItems newItems) k =
        orElseO (lastWith newItems k)
          (if (rawItems.map RawItem.id).contains k then lastWith cachedItems k
           else none)) ∧
    (∀ (cachedItems : List Item) (rawItems : List RawItem) (newItems : List Item)
       (c : Item),
      c ∈ cachedItems → c.id ∉ rawItems.map RawItem.id →
      (∀ e ∈ newItems, e.id ∈ rawItems.map RawItem.id) →
      ∀ i ∈ jsMapValues (mergeItems cachedItems rawItems newItems), i.id ≠ c.id) ∧
    (∀ (cachedItems : List Item) (rawItems : List RawItem) (newItems : List Item)
       (i : Item),
      i ∈ jsMapValues (mergeItems cachedItems rawItems newItems) ↔
        jsMapGet (mergeItems cachedItems rawItems newItems) i.id = some i) ∧
    (∀ (didl : Didl) (cached : Snapshot) (cs : List RawContainer),
      didl.container = XmlVal.many cs → mergedContainersOf didl cached = cs) ∧
    (∀ (didl : Didl) (cached : Snapshot) (c : RawContainer),
      didl.container = XmlVal.one c → mergedContainersOf didl cached = [c]) ∧
    (∀ (didl : Didl) (cached : Snapshot),
      didl.container = XmlVal.absent → mergedContainersOf didl cached = cached.containers) := by
  refine ⟨jsMapGet_mergeItems, ?_, ?_, ?_, ?_, ?_⟩
  · intro cachedItems rawItems newItems c hc hcid hnew i hi hid
    have hget : jsMapGet (mergeItems cachedItems rawItems newItems) i.id = some i :=
      (mem_values_iff (goodMap_mergeItems _ _ _) i).mp hi
    rw [jsMapGet_mergeItems, hid] at hget
    cases hlw : lastWith newItems c.id with
    | some e =>
      rw [hlw] at hget
      have hmem := mem_of_lastWith_eq_some hlw
      exact hcid (hmem.2 ▸ hnew e hmem.1)
    | none =>
      rw [hlw] at hget
      have hcont : (rawItems.map RawItem.id).contains c.id = false := by
        simpa using hcid
      rw [hcont] at hget
      simp [orElseO] at hget
  · intro cachedItems rawItems newItems i
    exact mem_values_iff (goodMap_mergeItems _ _ _) i
  · intro didl cached cs h
    unfold mergedContainersOf
    rw [h]
    rfl
  · intro didl cached c h
    unfold mergedContainersOf
    rw [h]
    rfl
  · intro didl cached h
    unfold mergedContainersOf
    rw [h]

/-- A transformed item with id `"7"` used in the C3 witness. -/
def c3New : Item := { id := "7", title := "T", artist := "A", album := "B" }

/-- C3 witness: with the remote listing carrying only id `"7"`, the cached
item of id `"1"` is absent from the merged values. -/
theorem C3_merge_semantics_witness :
    ∀ i ∈ jsMapValues (mergeItems [c4Item] [c1RawA] [c3New]), i.id ≠ c4Item.id :=
  C3_merge_semantics.2.1 [c4Item] [c1RawA] [c3New] c4Item (by decide) (by decide)
    (by decide)

/-- Oracle environment in which every outbound effect fails (network fetches
abort, no cached art exists, writes fail); the classifier is a constant
placeholder. -/
def nullEnv : EnrichEnv :=
  { metaFetch := fun _ _ => none
    metaParse := fun _ => none
    artHead := fun _ _ => none
    artGet := fun _ _ _ => none
    artParse := fun _ _ => none
    fsExists := fun _ => false
    writeOk := fun _ => false
    classify := fun _ _ => { encoding := "FLAC", label := "Lossless", tier := "high" } }

/-- A concrete server configuration. -/
def demoCfg : Config := { ip := "10.0.0.2", port := "5000" }

/-- A titled raw remote item with a resolved URL. -/
def c7Raw : RawItem :=
  { id := "1", title := some "A", res := .one { text := some "http://x/a.flac" } }

/-- A remote listing containing exactly `c7Raw`. -/
def c7Didl : Didl := { item := .many [c7Raw] }

/-- C7 counterexample: with the metadata probe failing (network error), the
single freshly synced item carries NO `quality` record at all, so its
`quality.label` is not a non-null string; its `albumArtUrl` still falls back
to the default placeholder. -/
theorem C7_single_item_cex :
    ((browse nullEnv demoCfg defaultData c7Didl true "t").response.items.map
        Item.quality) = [none] ∧
    ((browse nullEnv demoCfg defaultData c7Didl true "t").response.items.map
        Item.albumArtUrl) = [some "10.0.0.2:5000/public/default.png"] := by
  have hresp : (browse nullEnv demoCfg defaultData c7Didl true "t").response.items =
      [enrichItem nullEnv demoCfg (mapRawItem c7Raw)] := by
    unfold browse
    rw [show ((itemsToScan defaultData.items (ensureArrayX c7Didl.item)).isEmpty &&
        (toRemove defaultData.items (ensureArrayX c7Didl.item)).isEmpty) = false from rfl]
    rw [if_neg (by simp)]
    rw [browseMerged_response]
    show jsMapValues (mergeItems defaultData.items (ensureArrayX c7Didl.item)
      (transformDIDLData nullEnv demoCfg (filteredDidl c7Didl
        (itemsToScan defaultData.items (ensureArrayX c7Didl.item))) true).items) = _
    rw [show itemsToScan defaultData.items (ensureArrayX c7Didl.item) = [c7Raw] from rfl]
    rw [transform_items_eq]
    rfl
  rw [hresp]
  constructor
  · show [(enrichItem nullEnv demoCfg (mapRawItem c7Raw)).quality] = [none]
    rw [enrichItem_quality_none nullEnv demoCfg _ rfl]
    rfl
  · show [(enrichItem nullEnv demoCfg (mapRawItem c7Raw)).albumArtUrl] = _
    rw [enrichItem_albumArtUrl_default nullEnv demoCfg _ (fun _ => rfl) (fun _ => rfl)]
    rfl

/-- C7 (amended): syncing a remote listing containing a single item against
the empty cache with metadata enabled produces exactly one enriched item;
its `albumArtUrl` is always a (non-null) string — the default placeholder
reference when both art-extraction strategies fail — and whenever the
metadata probe succeeds its `quality.label` is the (non-null) string
produced by the quality classifier; when the probe fails, the item carries
no `quality` record. -/
theorem C7_single_item_amended :
    ∀ (env : EnrichEnv) (cfg : Config) (r : RawItem) (didl : Didl) (now : String),
      didl.item = XmlVal.many [r] →
      ∃ e, (browse env cfg defaultData didl true now).response.items = [e] ∧
        e.albumArtUrl.isSome = true ∧
        ((∀ s, env.fsExists s = false) →
          (∀ t, env.artHead (mapRawItem r).url t = none) →
          e.albumArtUrl = some (cfg.ip ++ ":" ++ cfg.port ++ "/public/default.png")) ∧
        (∀ m, getAudioMetadata (env.metaFetch (mapRawItem r).url)
            (env.metaParse (mapRawItem r).url) = some m →
          ∃ q, e.quality = some q ∧
            q.label = (env.classify m (mapRawItem r).bitrate).label) ∧
        (getAudioMetadata (env.metaFetch (mapRawItem r).url)
            (env.metaParse (mapRawItem r).url) = none → e.quality = none) := by
  intro env cfg r didl now hdidl
  have hraw : ensureArrayX didl.item = [r] := by rw [hdidl]; rfl
  have hscan : itemsToScan defaultData.items (ensureArrayX didl.item) = [r] := by
    rw [hraw]
    rfl
  have hcond : ((itemsToScan defaultData.items (ensureArrayX didl.item)).isEmpty &&
      (toRemove defaultData.items (ensureArrayX didl.item)).isEmpty) = false := by
    rw [hscan]
    rfl
  have hnew : (transformDIDLData env cfg (filteredDidl didl
      (itemsToScan defaultData.items (ensureArrayX didl.item))) true).items =
      [enrichItem env cfg (mapRawItem r)] := by
    rw [hscan, transform_items_eq]
    rfl
  have hresp : (browse env cfg defaultData didl true now).response.items =
      [enrichItem env cfg (mapRawItem r)] := by
    unfold browse
    rw [hcond]
    rw [if_neg (by simp)]
    rw [browseMerged_response]
    show jsMapValues (mergeItems defaultData.items (ensureArrayX didl.item)
      (transformDIDLData env cfg (filteredDidl didl
        (itemsToScan defaultData.items (ensureArrayX didl.item))) true).items) = _
    rw [hnew, hraw]
    rfl
  refine ⟨enrichItem env cfg (mapRawItem r), hresp,
    enrichItem_albumArtUrl_isSome env cfg _, ?_, ?_, ?_⟩
  · intro hfs hhead
    exact enrichItem_albumArtUrl_default env cfg (mapRawItem r) hfs hhead
  · intro m hm
    exact ⟨_, enrichItem_quality_some env cfg _ m hm, rfl⟩
  · intro hm
    rw [enrichItem_quality_none env cfg _ hm]
    rfl

/-- The failing-everything environment, except that the metadata prefix
fetch answers `206` and the parse succeeds with no technical fields. -/
def c7env2 : EnrichEnv :=
  { nullEnv with
    metaFetch := fun _ _ => some { status := 206 }
    metaParse := fun _ => some {} }

/-- C7 witness: with a succeeding probe and failing art strategies, the
single synced item gets the placeholder art URL and a quality record whose
label comes from the classifier. -/
theorem C7_single_item_amended_witness :
    ∃ e, (browse c7env2 demoCfg defaultData c7Didl true "t").response.items = [e] ∧
      e.albumArtUrl = some (demoCfg.ip ++ ":" ++ demoCfg.port ++ "/public/default.png") ∧
      ∃ q, e.quality = some q ∧ q.label = "Lossless" := by
  obtain ⟨e, h1, _h2, h3, h4, _h5⟩ :=
    C7_single_item_amended c7env2 demoCfg c7Raw c7Didl "t" rfl
  obtain ⟨q, hq, hlab⟩ := h4 {} rfl
  exact ⟨e, h1, h3 (fun _ => rfl) (fun _ => rfl), q, hq, by rw [hlab]; rfl⟩

/-- A raw remote item carrying no `dc:title`. -/
def c2Raw : RawItem := { id := "1" }

/-- A remote listing containing exactly the title-less `c2Raw`. -/
def c2Didl : Didl := { item := .many [c2Raw] }

/-- C2 counterexample: with a title-less remote item, the mapped item is
stored under title `"Unknown"`, which differs from the raw `undefined`
title on the next diff, so the second sync against the unchanged listing
writes again — and the snapshot it persists differs from the first one (a
fresh `lastUpdated` stamp), refuting byte-for-byte idempotence. -/
theorem C2_idempotence_cex :
    ((browse nullEnv demoCfg
        (browse nullEnv demoCfg defaultData c2Didl false "t1").response
        c2Didl false "t2").written ≠ none) ∧
    ((browse nullEnv demoCfg
        (browse nullEnv demoCfg defaultData c2Didl false "t1").response
        c2Didl false "t2").written ≠
      (browse nullEnv demoCfg defaultData c2Didl false "t1").written) := by decide

/-- C2 (amended): if the computed `toScan` and `toRemove` sets are both
empty, the browse handler returns the cached snapshot unmodified, performing
no per-item enrichment work and no database write; and provided every remote
item carries a non-empty `dc:title` and the remote ids are pairwise
distinct, running a sync twice in succession with no remote changes performs
no write on the second run and returns the same snapshot — leaving the
persisted snapshot byte-for-byte identical.  (A title-less item is
re-mapped to `"Unknown"` and re-scanned on every pass, which defeats
idempotence; see the counterexample.) -/
theorem C2_short_circuit_idempotent :
    (∀ (env : EnrichEnv) (cfg : Config) (cached : Snapshot) (didl : Didl)
       (im : Bool) (now : String),
      itemsToScan cached.items (ensureArrayX didl.item) = [] →
      toRemove cached.items (ensureArrayX didl.item) = [] →
      browse env cfg cached didl im now =
        { response := cached, written := none, scanned := [] }) ∧
    (∀ (env : EnrichEnv) (cfg : Config) (cached : Snapshot) (didl : Didl)
       (im₁ im₂ : Bool) (now₁ now₂ : String),
      ((ensureArrayX didl.item).map RawItem.id).Nodup →
      (∀ r ∈ ensureArrayX didl.item, r.title.getD "" ≠ "") →
      (browse env cfg (browse env cfg cached didl im₁ now₁).response didl
          im₂ now₂).written = none ∧
      (browse env cfg (browse env cfg cached didl im₁ now₁).response didl
          im₂ now₂).response = (browse env cfg cached didl im₁ now₁).response) := by
  constructor
  · exact browse_short_circuit
  · intro env cfg cached didl im₁ im₂ now₁ now₂ hnd hT
    by_cases hc : ((itemsToScan cached.items (ensureArrayX didl.item)).isEmpty &&
        (toRemove cached.items (ensureArrayX didl.item)).isEmpty) = true
    · rw [Bool.and_eq_true, List.isEmpty_iff, List.isEmpty_iff] at hc
      have hb1 := browse_short_circuit env cfg cached didl im₁ now₁ hc.1 hc.2
      have hb2 := browse_short_circuit env cfg cached didl im₂ now₂ hc.1 hc.2
      rw [hb1]
      rw [hb2]
      exact ⟨rfl, rfl⟩
    · have hb1 : browse env cfg cached didl im₁ now₁ =
          browseMerged env cfg cached didl im₁ now₁ := by
        unfold browse
        rw [if_neg hc]
      have hresp : (browse env cfg cached didl im₁ now₁).response.items =
          jsMapValues (mergeItems cached.items (ensureArrayX didl.item)
            (transformDIDLData env cfg (filteredDidl didl
              (itemsToScan cached.items (ensureArrayX didl.item))) im₁).items) := by
        rw [hb1, browseMerged_response]
      obtain ⟨hs2, hr2⟩ := merged_no_rescan env cfg cached didl im₁ hnd hT
      have hb2 := browse_short_circuit env cfg
        (browse env cfg cached didl im₁ now₁).response didl im₂ now₂
        (by rw [hresp]; exact hs2) (by rw [hresp]; exact hr2)
      rw [hb2]
      exact ⟨rfl, rfl⟩

/-- C2 witness: a titled single-item listing synced twice from the empty
cache triggers no write and no change on the second run. -/
theorem C2_short_circuit_idempotent_witness :
    (browse nullEnv demoCfg
        (browse nullEnv demoCfg defaultData c7Didl false "t1").response
        c7Didl false "t2").written = none ∧
    (browse nullEnv demoCfg
        (browse nullEnv demoCfg defaultData c7Didl false "t1").response
        c7Didl false "t2").response =
      (browse nullEnv demoCfg defaultData c7Didl false "t1").response :=
  C2_short_circuit_idempotent.2 nullEnv demoCfg defaultData c7Didl false false
    "t1" "t2" (by decide) (by decide)

end Caramel
